import Mathlib

/-!
# Client command layer of centrifugo (`client.go`)

A shallow embedding of `src/client.go`: the message classifier
(`getMessageType`), the command extractor (`getCommandsFromClientMessage`),
the dispatcher (`handleCommand`, `handleCommands`, `handleMessage`) and the
session constructor (`newClient`).

Conventions of the embedding.

* Go `string` and `[]byte` are both finite byte sequences and the conversions
  `[]byte(msg)` / `string(jsonResp)` copy them unchanged; both are `String` here.
* A Go slice is a `List`; the nil slice and the empty slice are both `[]`
  (`range` and `append` do not tell them apart).
* A Go `map[string]T` is an association list; the nil map is `[]`.
* A Go `error` is `Option GoError`, `none` being `nil`.
* A method with pointer receiver `c *client` takes the session state and
  returns the state it leaves behind (explicit state passing).
* Calls that leave the program (`Session.Send`) and calls of the three command
  handlers are recorded, in order, in a list of `Event`s returned next to the
  result.
* Functions of other packages (`encoding/json`, `gouuid`, `sockjs`) and the
  parts of this package that `client.go` uses but does not define are gathered
  in `Env` and are arbitrary in every general theorem.
* `Ref` holds an executable model of `encoding/json` on the three Go types
  that `client.go` decodes into; it gives `Env` a value at concrete messages
  and carries the properties that depend on what the decoder does.
-/

namespace Centrifugo

/-! ## Data model -/

/-- A finite value of Go's `float64`: `mant * 2 ^ exp`, negated when `neg`. The
representation is canonical: `mant` is odd, or `mant = 0` and `exp = 0`. -/
structure float64 where
  neg : Bool
  mant : Nat
  exp : Int
  deriving DecidableEq, Repr

/-- A decoded JSON value, as `encoding/json` stores it in an `interface{}`:
`nil`, `bool`, `float64`, `string`, `[]interface{}` or `map[string]interface{}`. -/
inductive JVal where
  | null : JVal
  | bool (b : Bool) : JVal
  | num (value : float64) : JVal
  | str (s : String) : JVal
  | arr (elems : List JVal) : JVal
  | obj (members : List (String × JVal)) : JVal

/-- An error value built by `encoding/json` (`*json.SyntaxError`,
`*json.UnmarshalTypeError`, ...), identified by its message. -/
inductive JsonError where
  | syntaxError (msg : String) : JsonError
  | unmarshalTypeError (msg : String) : JsonError
  | other (msg : String) : JsonError
  deriving DecidableEq, Repr

/-- Modelled from the spec: the error values `ErrInvalidClientMessage`,
`ErrUnauthorized` and `ErrMethodNotFound` are used by `client.go` and declared
elsewhere in the package; the spec lists them as the three distinct error kinds
`InvalidMessage`, `Unauthorized` and `MethodNotFound`. The other constructors
are the errors that come out of the libraries: an `encoding/json` error, the
error of the identifier generator, and an error of the transport. A library
never returns one of the package's own error values. -/
inductive GoError where
  | ErrInvalidClientMessage : GoError
  | ErrUnauthorized : GoError
  | ErrMethodNotFound : GoError
  | json (e : JsonError) : GoError
  | uuid (msg : String) : GoError
  | transport (msg : String) : GoError
  | marshal (msg : String) : GoError
  deriving DecidableEq, Repr

/-- The type `params` of the source: `map[string]interface{}`. -/
abbrev params := List (String × JVal)

/-- The struct `clientCommand`. -/
structure clientCommand where
  Method : String
  Params : params
  Uid : String

/-- Modelled from the spec: the struct `response` is declared outside
`client.go`; the spec gives it as `{method, uid, body | error}`. `client.go`
itself only builds the zero value `response{}` and assigns `Method` and `Uid`. -/
structure response where
  Method : String
  Uid : String
  Body : JVal
  Error : Option String

/-- The zero value `response{}`. -/
def response.zero : response := ⟨"", "", JVal.null, none⟩

/-- The interface `sockjs.Session` as far as `client.go` uses it: `Send`, which
takes the text to deliver and returns an error or nil. -/
structure Session where
  Send : String → Option GoError

/-- The struct `client`. `mutexLocked` is the embedded `sync.Mutex` (false is
the unlocked zero value); `closeChannel` is the identity of the channel. -/
structure client where
  mutexLocked : Bool
  session : Session
  uid : String
  project : String
  user : String
  timestamp : Int
  token : String
  defaultInfo : List (String × JVal)
  channelInfo : List (String × JVal)
  isAuthenticated : Bool
  channels : List (String × String)
  closeChannel : Nat

/-- An observable step of the dispatcher: a call of one of the three command
handlers (with the params it was given) or a `Send` on the session. -/
inductive Event where
  | connectCalled (ps : params) : Event
  | subscribeCalled (ps : params) : Event
  | publishCalled (ps : params) : Event
  | sent (text : String) : Event

/-- The texts sent on the transport, in order. -/
def sends : List Event → List String
  | [] => []
  | Event.sent t :: es => t :: sends es
  | _ :: es => sends es

/-- What a call of a `(c *client)` method returning `(response, error)` leaves:
the session state, the events it performed, and the two returned values. -/
structure CommandResult where
  c : client
  events : List Event
  resp : response
  err : Option GoError

/-- What a call of a `(c *client)` method returning `error` leaves. -/
structure Result where
  c : client
  events : List Event
  err : Option GoError

/-- A value of `*uuid.UUID` as far as `client.go` uses it: its `String()`. -/
structure UUID where
  String : String

/-- The functions `client.go` calls and does not define.

* `unmarshalAny b` is `json.Unmarshal(b, &f)` for `var f interface{}`: the value
  left in `f` and the returned error.
* `unmarshalCommand b` is `json.Unmarshal(b, &command)` for a zero
  `clientCommand`: the value left in `command` and the returned error.
* `unmarshalCommands b` is `json.Unmarshal(b, &commands)` for a nil
  `[]clientCommand`: the value left in `commands` (it can be filled in part
  when the error is not nil) and the returned error.
* `toJson mr` is the method `multiResponse.toJson`, declared outside `client.go`.
* `newV4` is `uuid.NewV4()`: an identifier or an error. -/
structure Env where
  unmarshalAny : String → JVal × Option JsonError
  unmarshalCommand : String → clientCommand × Option JsonError
  unmarshalCommands : String → List clientCommand × Option JsonError
  toJson : List response → String × Option GoError
  newV4 : Except GoError UUID

/-! ## Session construction and accessors -/

/-- Source `newClient`. -/
def newClient (env : Env) (session : Session) (closeChannel : Nat) :
    Option client × Option GoError :=
  match env.newV4 with
  | Except.error err => (none, some err)
  | Except.ok uid =>
    (some
      { mutexLocked := false
        session := session
        uid := uid.String
        project := ""
        user := ""
        timestamp := 0
        token := ""
        defaultInfo := []
        channelInfo := []
        isAuthenticated := false
        channels := []
        closeChannel := closeChannel }, none)

/-- Source `getUid`. -/
def getUid (c : client) : String := c.uid

/-- Source `getProject`. -/
def getProject (c : client) : String := c.project

/-- Source `getUser`. -/
def getUser (c : client) : String := c.user

/-! ## Classifier and extractor -/

/-- Source `getMessageType`. -/
def getMessageType (env : Env) (msgBytes : String) : String × Option GoError :=
  match env.unmarshalAny msgBytes with
  | (_, some err) => ("", some (GoError.json err))
  | (f, none) =>
    match f with
    | JVal.obj _ => ("map", none)
    | JVal.arr _ => ("array", none)
    | _ => ("", some GoError.ErrInvalidClientMessage)

/-- Source `getCommandsFromClientMessage`. -/
def getCommandsFromClientMessage (env : Env) (msgBytes : String) (msgType : String) :
    List clientCommand × Option GoError :=
  let commands : List clientCommand := []
  if msgType = "map" then
    match env.unmarshalCommand msgBytes with
    | (_, some err) => ([], some (GoError.json err))
    | (command, none) => (commands ++ [command], none)
  else if msgType = "array" then
    match env.unmarshalCommands msgBytes with
    | (_, some err) => ([], some (GoError.json err))
    | (decoded, none) => (decoded, none)
  else
    (commands, none)

/-! ## The dispatcher -/

/-- Source `handleConnect`: returns `response{}, nil`. -/
def handleConnect (c : client) (ps : params) : CommandResult :=
  ⟨c, [Event.connectCalled ps], response.zero, none⟩

/-- Source `handleSubscribe`: returns `response{}, nil`. -/
def handleSubscribe (c : client) (ps : params) : CommandResult :=
  ⟨c, [Event.subscribeCalled ps], response.zero, none⟩

/-- Source `handlePublish`: returns `response{}, nil`. -/
def handlePublish (c : client) (ps : params) : CommandResult :=
  ⟨c, [Event.publishCalled ps], response.zero, none⟩

/-- Source `handleCommand`: the authentication gate, the routing switch, and
the stamping of `Method` and `Uid` on the handler's response. -/
def handleCommand (c : client) (command : clientCommand) : CommandResult :=
  let method := command.Method
  let params := command.Params
  if method ≠ "connect" ∧ !c.isAuthenticated then
    ⟨c, [], response.zero, some GoError.ErrUnauthorized⟩
  else
    let routed : Option CommandResult :=
      if method = "connect" then some (handleConnect c params)
      else if method = "subscribe" then some (handleSubscribe c params)
      else if method = "publish" then some (handlePublish c params)
      else none
    match routed with
    | none => ⟨c, [], response.zero, some GoError.ErrMethodNotFound⟩
    | some r =>
      match r.err with
      | some err => ⟨r.c, r.events, response.zero, some err⟩
      | none =>
        ⟨r.c, r.events, { r.resp with Method := method, Uid := command.Uid }, none⟩

/-- The loop of `handleCommands`: `mr` is the response list built so far. It
stops at the first command whose `handleCommand` returns an error. -/
def handleCommandsLoop (c : client) (mr : List response) :
    List clientCommand → client × List Event × List response × Option GoError
  | [] => (c, [], mr, none)
  | command :: rest =>
    let r := handleCommand c command
    match r.err with
    | some err => (r.c, r.events, mr, some err)
    | none =>
      let (c2, events, mr2, err) := handleCommandsLoop r.c (mr ++ [r.resp]) rest
      (c2, r.events ++ events, mr2, err)

/-- Source `handleCommands`. -/
def handleCommands (env : Env) (c : client) (commands : List clientCommand) : Result :=
  match handleCommandsLoop c [] commands with
  | (c1, events, _, some err) => ⟨c1, events, some err⟩
  | (c1, events, mr, none) =>
    match env.toJson mr with
    | (_, some err) => ⟨c1, events, some err⟩
    | (jsonResp, none) => ⟨c1, events ++ [Event.sent jsonResp], c1.session.Send jsonResp⟩

/-- Source `handleMessage`. -/
def handleMessage (env : Env) (c : client) (msg : String) : Result :=
  let msgBytes := msg
  match getMessageType env msgBytes with
  | (_, some err) => ⟨c, [], some err⟩
  | (msgType, none) =>
    match getCommandsFromClientMessage env msgBytes msgType with
    | (_, some err) => ⟨c, [], some err⟩
    | (commands, none) => handleCommands env c commands


/-! ## Notions used to state the properties -/

/-- Whether every command of the list is handled without error, each one on
the session state its predecessors leave. -/
def allAccepted (c : client) : List clientCommand → Bool
  | [] => true
  | command :: rest =>
    (handleCommand c command).err.isNone && allAccepted (handleCommand c command).c rest

/-- The session state after the commands of the list have been handled in order. -/
def clientAfter (c : client) : List clientCommand → client
  | [] => c
  | command :: rest => clientAfter (handleCommand c command).c rest

/-- The response list `mr` that the loop of `handleCommands` has built when it
stops. -/
def responsesOf (c : client) (commands : List clientCommand) : List response :=
  (handleCommandsLoop c [] commands).2.2.1

/-- Whether the top-level value is a JSON object. -/
def JVal.isObject : JVal → Bool
  | JVal.obj _ => true
  | _ => false

/-- Whether the top-level value is a JSON array. -/
def JVal.isArray : JVal → Bool
  | JVal.arr _ => true
  | _ => false

/-- The session state after the messages of the list have been handled in order. -/
def clientAfterMessages (env : Env) (c : client) : List String → client
  | [] => c
  | msg :: rest => clientAfterMessages env (handleMessage env c msg).c rest

/-! ## The session's lock

`client.go` embeds a `sync.Mutex` in `client` and calls neither `Lock` nor
`Unlock`. To speak of the state of the mutex at the moment of a read or of a
`Send`, the functions of the source that touch the session are embedded a
second time, with the same bodies, returning next to their result the list of
the accesses they perform, each with the state of the mutex at that moment
(`mutexLocked` of the session state the access meets). -/

/-- A read of a field of the session, or a `Send` on the transport, with the
state of the session's mutex at that moment. -/
inductive Access where
  | readIsAuthenticated (locked : Bool) : Access
  | readProject (locked : Bool) : Access
  | readUser (locked : Bool) : Access
  | readSession (locked : Bool) : Access
  | send (locked : Bool) : Access
  deriving DecidableEq, Repr

/-- The state of the mutex at an access. -/
def Access.locked : Access → Bool
  | Access.readIsAuthenticated l => l
  | Access.readProject l => l
  | Access.readUser l => l
  | Access.readSession l => l
  | Access.send l => l

/-- Whether an access is a `Send` on the transport. -/
def Access.isSend : Access → Bool
  | Access.send _ => true
  | _ => false

/-- The locking rule of the spec at one access: a read of `isAuthenticated`,
`project` or `user` happens with the lock held, a `Send` with the lock not
held. The field `session` is set at construction and never written; the rule
asks nothing of its read. -/
def Access.obeysRule : Access → Bool
  | Access.send l => !l
  | Access.readSession _ => true
  | a => a.locked

/-- The locking rule along a list of accesses. -/
def lockDiscipline (accesses : List Access) : Bool := accesses.all Access.obeysRule

/-- Source `getProject`, with its accesses: `return c.project` reads `project`. -/
def getProjectTraced (c : client) : String × List Access :=
  (c.project, [Access.readProject c.mutexLocked])

/-- Source `getUser`, with its accesses: `return c.user` reads `user`. -/
def getUserTraced (c : client) : String × List Access :=
  (c.user, [Access.readUser c.mutexLocked])

/-- Source `handleCommand`, with its accesses. The gate
`method != "connect" && !c.isAuthenticated` reads `isAuthenticated` when the
method is not "connect" (the right side of `&&` is evaluated only then); the
three handlers read nothing. -/
def handleCommandTraced (c : client) (command : clientCommand) :
    CommandResult × List Access :=
  let method := command.Method
  let params := command.Params
  let gate : List Access :=
    if method ≠ "connect" then [Access.readIsAuthenticated c.mutexLocked] else []
  if method ≠ "connect" ∧ !c.isAuthenticated then
    (⟨c, [], response.zero, some GoError.ErrUnauthorized⟩, gate)
  else
    let routed : Option CommandResult :=
      if method = "connect" then some (handleConnect c params)
      else if method = "subscribe" then some (handleSubscribe c params)
      else if method = "publish" then some (handlePublish c params)
      else none
    match routed with
    | none => (⟨c, [], response.zero, some GoError.ErrMethodNotFound⟩, gate)
    | some r =>
      match r.err with
      | some err => (⟨r.c, r.events, response.zero, some err⟩, gate)
      | none =>
        (⟨r.c, r.events, { r.resp with Method := method, Uid := command.Uid }, none⟩, gate)

/-- The loop of `handleCommands`, with its accesses. -/
def handleCommandsLoopTraced (c : client) (mr : List response) :
    List clientCommand →
      (client × List Event × List response × Option GoError) × List Access
  | [] => ((c, [], mr, none), [])
  | command :: rest =>
    let r := handleCommandTraced c command
    match r.1.err with
    | some err => ((r.1.c, r.1.events, mr, some err), r.2)
    | none =>
      let rs := handleCommandsLoopTraced r.1.c (mr ++ [r.1.resp]) rest
      ((rs.1.1, r.1.events ++ rs.1.2.1, rs.1.2.2.1, rs.1.2.2.2), r.2 ++ rs.2)

/-- Source `handleCommands`, with its accesses: those of the loop, then, when
`c.session.Send(...)` is reached, the read of `session` and the `Send`. -/
def handleCommandsTraced (env : Env) (c : client) (commands : List clientCommand) :
    Result × List Access :=
  match handleCommandsLoopTraced c [] commands with
  | ((c1, events, _, some err), accesses) => (⟨c1, events, some err⟩, accesses)
  | ((c1, events, mr, none), accesses) =>
    match env.toJson mr with
    | (_, some err) => (⟨c1, events, some err⟩, accesses)
    | (jsonResp, none) =>
      (⟨c1, events ++ [Event.sent jsonResp], c1.session.Send jsonResp⟩,
        accesses ++ [Access.readSession c1.mutexLocked, Access.send c1.mutexLocked])

/-! ## A reference decoder

An executable model of the part of `encoding/json` that `client.go` relies on,
used to instantiate `Env` at concrete messages. Texts are handled as lists of
character codes. -/

namespace Ref

/-- A JSON text as the scanner of `encoding/json` reads it, before any value is
stored: a number is still its literal, and the members of an object are in the
order of the text. -/
inductive JText where
  | null : JText
  | bool (b : Bool) : JText
  | num (literal : String) : JText
  | str (s : String) : JText
  | arr (elems : List JText) : JText
  | obj (members : List (String × JText)) : JText

/-- Drops leading JSON white space (space, tab, line feed, carriage return). -/
def skipWs : List Nat → List Nat
  | [] => []
  | ch :: rest => if ch = 32 ∨ ch = 9 ∨ ch = 10 ∨ ch = 13 then skipWs rest else ch :: rest

/-- Whether a character code is a decimal digit. -/
def isDigit (ch : Nat) : Bool := decide (48 ≤ ch ∧ ch ≤ 57)

/-- Splits off the longest run of decimal digits. -/
def spanDigits : List Nat → List Nat × List Nat
  | [] => ([], [])
  | ch :: rest =>
    if isDigit ch then
      let (ds, tail) := spanDigits rest
      (ch :: ds, tail)
    else ([], ch :: rest)

/-- The value of a hexadecimal digit. -/
def hexVal (ch : Nat) : Option Nat :=
  if 48 ≤ ch ∧ ch ≤ 57 then some (ch - 48)
  else if 97 ≤ ch ∧ ch ≤ 102 then some (ch - 87)
  else if 65 ≤ ch ∧ ch ≤ 70 then some (ch - 55)
  else none

/-- The text made of the given character codes. -/
def textOf (codes : List Nat) : String := String.mk (codes.map Char.ofNat)

/-- The character codes of a text. -/
def codesOf (s : String) : List Nat := s.toList.map Char.toNat

/-- Reads four hexadecimal digits: their value and what follows them. -/
def hex4 : List Nat → Option (Nat × List Nat)
  | a :: b :: c :: d :: rest =>
    match hexVal a, hexVal b, hexVal c, hexVal d with
    | some x, some y, some z, some w => some (((x * 16 + y) * 16 + z) * 16 + w, rest)
    | _, _, _, _ => none
  | _ => none

/-- Reads an escape `\uXXXX` at the head of the input: its value and what
follows it. -/
def getu4 : List Nat → Option (Nat × List Nat)
  | b :: u :: rest => if b = 92 ∧ u = 117 then hex4 rest else none
  | _ => none

/-- The character that an escape `\uXXXX` of value `x` stands for, and the
input after it. A high surrogate followed by the escape of a low surrogate
stands, with it, for one character; any other surrogate stands for U+FFFD. -/
def unescape (x : Nat) (rest : List Nat) : Nat × List Nat :=
  if 0xD800 ≤ x ∧ x ≤ 0xDFFF then
    match getu4 rest with
    | some (y, rest2) =>
      if x < 0xDC00 ∧ 0xDC00 ≤ y ∧ y ≤ 0xDFFF then
        (0x10000 + (x - 0xD800) * 0x400 + (y - 0xDC00), rest2)
      else (0xFFFD, rest)
    | none => (0xFFFD, rest)
  else (x, rest)

/-- Reads the body of a string literal, the opening quote already consumed:
the decoded characters and what follows the closing quote. `fuel` bounds the
number of characters read. -/
def scanString : Nat → List Nat → Option (List Nat × List Nat)
  | 0, _ => none
  | _ + 1, [] => none
  | fuel + 1, ch :: rest =>
    if ch = 34 then some ([], rest)
    else if ch < 32 then none
    else if ch = 92 then
      match rest with
      | [] => none
      | e :: rest2 =>
        if e = 117 then
          match hex4 rest2 with
          | none => none
          | some (x, rest3) =>
            match scanString fuel (unescape x rest3).2 with
            | some (body, tail) => some ((unescape x rest3).1 :: body, tail)
            | none => none
        else
          let plain : Option Nat :=
            if e = 34 ∨ e = 92 ∨ e = 47 then some e
            else if e = 98 then some 8
            else if e = 102 then some 12
            else if e = 110 then some 10
            else if e = 114 then some 13
            else if e = 116 then some 9
            else none
          match plain, scanString fuel rest2 with
          | some x, some (body, tail) => some (x :: body, tail)
          | _, _ => none
    else
      match scanString fuel rest with
      | some (body, tail) => some (ch :: body, tail)
      | none => none

/-- Reads a number literal: the literal and what follows it. -/
def scanNumber (cs : List Nat) : Option (List Nat × List Nat) :=
  let (sign, cs1) : List Nat × List Nat :=
    match cs with
    | ch :: rest => if ch = 45 then ([45], rest) else ([], cs)
    | [] => ([], [])
  let (intPart, cs2) := spanDigits cs1
  if intPart = [] ∨ (intPart.length > 1 ∧ intPart.head? = some 48) then none
  else
    let fracRes : Option (List Nat × List Nat) :=
      match cs2 with
      | ch :: rest =>
        if ch = 46 then
          let (ds, tail) := spanDigits rest
          if ds = [] then none else some (46 :: ds, tail)
        else some ([], cs2)
      | [] => some ([], [])
    match fracRes with
    | none => none
    | some (frac, cs3) =>
      let expRes : Option (List Nat × List Nat) :=
        match cs3 with
        | ch :: rest =>
          if ch = 101 ∨ ch = 69 then
            let (sg, rest2) : List Nat × List Nat :=
              match rest with
              | s :: r => if s = 43 ∨ s = 45 then ([s], r) else ([], rest)
              | [] => ([], [])
            let (ds, tail) := spanDigits rest2
            if ds = [] then none else some (ch :: sg ++ ds, tail)
          else some ([], cs3)
        | [] => some ([], [])
      match expRes with
      | none => none
      | some (ex, cs4) => some (sign ++ intPart ++ frac ++ ex, cs4)

/-- Strips the given word from the front of the input. -/
def stripWord : List Nat → List Nat → Option (List Nat)
  | [], cs => some cs
  | _ :: _, [] => none
  | w :: ws, ch :: cs => if w = ch then stripWord ws cs else none

/-- The deepest nesting of arrays and objects that the scanner accepts. -/
def maxNestingDepth : Nat := 10000

mutual
/-- Reads one JSON value; `fuel` bounds the recursion, `depth` is the number of
arrays and objects that are open. -/
def scanValue : Nat → Nat → List Nat → Option (JText × List Nat)
  | 0, _, _ => none
  | fuel + 1, depth, cs =>
    match skipWs cs with
    | [] => none
    | ch :: rest =>
      if ch = 123 then
        if depth + 1 > maxNestingDepth then none
        else
          match skipWs rest with
          | [] => none
          | ch2 :: rest2 =>
            if ch2 = 125 then some (JText.obj [], rest2)
            else scanMembers fuel (depth + 1) (ch2 :: rest2) []
      else if ch = 91 then
        if depth + 1 > maxNestingDepth then none
        else
          match skipWs rest with
          | [] => none
          | ch2 :: rest2 =>
            if ch2 = 93 then some (JText.arr [], rest2)
            else scanElems fuel (depth + 1) (ch2 :: rest2) []
      else if ch = 34 then
        match scanString (rest.length + 1) rest with
        | some (body, tail) => some (JText.str (textOf body), tail)
        | none => none
      else if ch = 116 then
        match stripWord [114, 117, 101] rest with
        | some tail => some (JText.bool true, tail)
        | none => none
      else if ch = 102 then
        match stripWord [97, 108, 115, 101] rest with
        | some tail => some (JText.bool false, tail)
        | none => none
      else if ch = 110 then
        match stripWord [117, 108, 108] rest with
        | some tail => some (JText.null, tail)
        | none => none
      else
        match scanNumber (ch :: rest) with
        | some (lit, tail) => some (JText.num (textOf lit), tail)
        | none => none
/-- Reads the elements of an array up to the closing bracket. -/
def scanElems : Nat → Nat → List Nat → List JText → Option (JText × List Nat)
  | 0, _, _, _ => none
  | fuel + 1, depth, cs, acc =>
    match scanValue fuel depth cs with
    | none => none
    | some (v, rest) =>
      match skipWs rest with
      | [] => none
      | ch :: rest2 =>
        if ch = 44 then scanElems fuel depth rest2 (acc ++ [v])
        else if ch = 93 then some (JText.arr (acc ++ [v]), rest2)
        else none
/-- Reads the members of an object up to the closing brace. -/
def scanMembers : Nat → Nat → List Nat → List (String × JText) →
    Option (JText × List Nat)
  | 0, _, _, _ => none
  | fuel + 1, depth, cs, acc =>
    match skipWs cs with
    | [] => none
    | q :: rest =>
      if q = 34 then
        match scanString (rest.length + 1) rest with
        | none => none
        | some (key, rest1) =>
          match skipWs rest1 with
          | [] => none
          | colon :: rest2 =>
            if colon = 58 then
              match scanValue fuel depth rest2 with
              | none => none
              | some (v, rest3) =>
                match skipWs rest3 with
                | [] => none
                | ch :: rest4 =>
                  if ch = 44 then scanMembers fuel depth rest4 (acc ++ [(textOf key, v)])
                  else if ch = 125 then some (JText.obj (acc ++ [(textOf key, v)]), rest4)
                  else none
            else none
      else none
end

/-- The syntax check of a whole text: one JSON value surrounded by optional
white space. -/
def parse (s : String) : Except JsonError JText :=
  let cs := codesOf s
  match scanValue (cs.length + 1) 0 cs with
  | none => Except.error (JsonError.syntaxError "invalid JSON text")
  | some (v, rest) =>
    match skipWs rest with
    | [] => Except.ok v
    | _ :: _ => Except.error (JsonError.syntaxError "invalid character after top-level value")

/-! ### Numbers

`encoding/json` stores a number in an `interface{}` as the `float64` that
`strconv.ParseFloat` gives for its literal, and reports a literal that is out
of range as an error. The conversion is exact integer arithmetic. -/

/-- The number written by a list of decimal digits. -/
def digitsValue (ds : List Nat) : Nat := ds.foldl (fun acc d => acc * 10 + (d - 48)) 0

/-- Drops leading zero digits. -/
def dropZeros : List Nat → List Nat
  | [] => []
  | d :: rest => if d = 48 then dropZeros rest else d :: rest

/-- The power `10 ^ n`, computed in steps of at most a hundred. -/
def pow10 : Nat → Nat → Nat
  | 0, _ => 1
  | fuel + 1, n => if n ≤ 100 then 10 ^ n else 10 ^ 100 * pow10 fuel (n - 100)

/-- The quotient of `p * 2 ^ (-e)` by `q`, rounded to the nearest integer, a
tie going to the even one. -/
def roundAt (p q : Nat) (e : Int) : Nat :=
  let num := if e < 0 then p <<< (-e).toNat else p
  let den := if e < 0 then q else q <<< e.toNat
  let quo := num / den
  let rem := num % den
  if 2 * rem > den ∨ (2 * rem = den ∧ quo % 2 = 1) then quo + 1 else quo

/-- The position of the highest set bit of a number below `2 ^ 64` (zero for
`n < 2`). -/
def log2Small : Nat → Nat → Nat
  | 0, _ => 0
  | fuel + 1, n => if n < 2 then 0 else log2Small fuel (n / 2) + 1

/-- The position of the highest set bit of `n` (zero for `n < 2`), taking 64
bits at a time; `fuel` bounds the number of steps. -/
def log2Floor : Nat → Nat → Nat
  | 0, _ => 0
  | fuel + 1, n => if n < 1 <<< 64 then log2Small 64 n else log2Floor fuel (n >>> 64) + 64

/-- Divides out the factors two of a mantissa (at most `fuel` of them). -/
def normalize : Nat → Nat → Int → Nat × Int
  | 0, mant, exp => (mant, exp)
  | fuel + 1, mant, exp =>
    if mant = 0 then (0, 0)
    else if mant % 2 = 0 then normalize fuel (mant / 2) (exp + 1)
    else (mant, exp)

/-- The `float64` nearest to `p / q` (both positive), a tie going to the even
mantissa, or `none` when that is beyond the largest `float64`. -/
def nearest (neg : Bool) (p q : Nat) : Option float64 :=
  let e1 : Int := max ((log2Floor p p : Int) - (log2Floor q q : Int) - 53) (-1074)
  let m1 := roundAt p q e1
  let me : Nat × Int :=
    if m1 < 1 <<< 53 then (m1, e1) else (roundAt p q (e1 + 1), e1 + 1)
  if 0 ≤ me.2 ∧ me.1 <<< me.2.toNat ≥ 1 <<< 1024 then none
  else
    let n := normalize 64 me.1 me.2
    some ⟨neg, n.1, n.2⟩

/-- The parts of a number literal: sign, digits before and after the point,
sign and digits of the exponent. -/
structure NumberParts where
  neg : Bool
  intDigits : List Nat
  fracDigits : List Nat
  expNeg : Bool
  expDigits : List Nat

/-- Reads the parts of a number literal that the scanner has accepted. -/
def numberParts (cs : List Nat) : NumberParts :=
  let neg := cs.head? = some 45
  let cs1 := if neg then cs.drop 1 else cs
  let (intDigits, cs2) := spanDigits cs1
  let (fracDigits, cs3) : List Nat × List Nat :=
    if cs2.head? = some 46 then spanDigits (cs2.drop 1) else ([], cs2)
  let cs4 := cs3.drop 1
  let expNeg := cs4.head? = some 45
  let cs5 := if cs4.head? = some 45 ∨ cs4.head? = some 43 then cs4.drop 1 else cs4
  ⟨neg, intDigits, fracDigits, expNeg, (spanDigits cs5).1⟩

/-- Model of `strconv.ParseFloat(s, 64)` on a JSON number literal: the nearest
`float64`, or `none` when the number is out of range. A number too small to
round to anything but zero gives zero. -/
def parseFloat (literal : String) : Option float64 :=
  let parts := numberParts (codesOf literal)
  let digits := dropZeros (parts.intDigits ++ parts.fracDigits)
  let m := digitsValue digits
  let e : Int :=
    (if parts.expNeg then -(digitsValue parts.expDigits : Int)
      else (digitsValue parts.expDigits : Int)) - (parts.fracDigits.length : Int)
  if m = 0 then some ⟨parts.neg, 0, 0⟩
  else if (digits.length : Int) + e > 310 then none
  else if (digits.length : Int) + e < -330 then some ⟨parts.neg, 0, 0⟩
  else if e < 0 then nearest parts.neg m (pow10 (-e).toNat (-e).toNat)
  else nearest parts.neg (m * pow10 e.toNat e.toNat) 1

/-! ### Storing into Go values -/

/-- Sets a key of a map, replacing the entry the key already has. -/
def mapSet (m : List (String × JVal)) (k : String) (v : JVal) : List (String × JVal) :=
  match m with
  | [] => [(k, v)]
  | (k2, v2) :: rest => if k2 = k then (k, v) :: rest else (k2, v2) :: mapSet rest k v

/-- The decoder keeps the first type error it meets and goes on. -/
def saveError (saved : Option JsonError) (e : JsonError) : Option JsonError :=
  match saved with
  | some s => some s
  | none => some e

mutual
/-- Stores a JSON value into an `interface{}`: the Go value, and the error
saved so far. A number out of range leaves nil and is an error. -/
def toInterface : JText → Option JsonError → JVal × Option JsonError
  | JText.null, saved => (JVal.null, saved)
  | JText.bool b, saved => (JVal.bool b, saved)
  | JText.num literal, saved =>
    match parseFloat literal with
    | some f => (JVal.num f, saved)
    | none =>
      (JVal.null, saveError saved
        (JsonError.unmarshalTypeError "cannot unmarshal number into Go value of type float64"))
  | JText.str s, saved => (JVal.str s, saved)
  | JText.arr elems, saved =>
    ((JVal.arr (toInterfaceElems elems saved).1), (toInterfaceElems elems saved).2)
  | JText.obj members, saved =>
    ((JVal.obj (toInterfaceMembers members [] saved).1),
      (toInterfaceMembers members [] saved).2)
/-- Stores the elements of a JSON array into a `[]interface{}`. -/
def toInterfaceElems : List JText → Option JsonError → List JVal × Option JsonError
  | [], saved => ([], saved)
  | v :: rest, saved =>
    ((toInterface v saved).1 :: (toInterfaceElems rest (toInterface v saved).2).1,
      (toInterfaceElems rest (toInterface v saved).2).2)
/-- Stores the members of a JSON object into the map `m`, in the order of the
text, a later member replacing an earlier one of the same key. -/
def toInterfaceMembers : List (String × JText) → List (String × JVal) →
    Option JsonError → List (String × JVal) × Option JsonError
  | [], m, saved => (m, saved)
  | (k, v) :: rest, m, saved =>
    toInterfaceMembers rest (mapSet m k (toInterface v saved).1) (toInterface v saved).2
end

mutual
/-- Whether every number literal inside a JSON value is within the range of
`float64`. -/
def numbersInRange : JText → Bool
  | JText.null => true
  | JText.bool _ => true
  | JText.num literal => (parseFloat literal).isSome
  | JText.str _ => true
  | JText.arr elems => elemsInRange elems
  | JText.obj members => membersInRange members
/-- Whether every number inside the elements of an array is within range. -/
def elemsInRange : List JText → Bool
  | [] => true
  | v :: rest => numbersInRange v && elemsInRange rest
/-- Whether every number inside the members of an object is within range. -/
def membersInRange : List (String × JText) → Bool
  | [] => true
  | (_, v) :: rest => numbersInRange v && membersInRange rest
end

/-- The name of a member as it is compared with the field names of a struct:
letter case does not count (the long s counts as s, the Kelvin sign as k). -/
def foldName (s : String) : String :=
  textOf ((codesOf s).map fun ch =>
    if 65 ≤ ch ∧ ch ≤ 90 then ch + 32
    else if ch = 0x17F then 115
    else if ch = 0x212A then 107
    else ch)

/-- Stores one member of a JSON object into a `clientCommand`: a member named
after a field must have the JSON type of the field (or be null), any other
member is skipped. -/
def storeMember (st : clientCommand × Option JsonError) (kv : String × JText) :
    clientCommand × Option JsonError :=
  let name := foldName kv.1
  if name = "method" then
    match kv.2 with
    | JText.str s => ({ st.1 with Method := s }, st.2)
    | JText.null => st
    | _ => (st.1, saveError st.2 (JsonError.unmarshalTypeError "clientCommand.Method: want string"))
  else if name = "params" then
    match kv.2 with
    | JText.obj members =>
      ({ st.1 with Params := (toInterfaceMembers members st.1.Params st.2).1 },
        (toInterfaceMembers members st.1.Params st.2).2)
    | JText.null => ({ st.1 with Params := [] }, st.2)
    | _ => (st.1, saveError st.2 (JsonError.unmarshalTypeError "clientCommand.Params: want object"))
  else if name = "uid" then
    match kv.2 with
    | JText.str s => ({ st.1 with Uid := s }, st.2)
    | JText.null => st
    | _ => (st.1, saveError st.2 (JsonError.unmarshalTypeError "clientCommand.Uid: want string"))
  else st

/-- Stores a JSON value into a `clientCommand` that holds `start`. -/
def storeCommand (start : clientCommand) (saved : Option JsonError) (v : JText) :
    clientCommand × Option JsonError :=
  match v with
  | JText.obj members => members.foldl storeMember (start, saved)
  | JText.null => (start, saved)
  | _ => (start, saveError saved (JsonError.unmarshalTypeError "clientCommand: want object"))

/-- The zero value of `clientCommand`. -/
def zeroCommand : clientCommand := ⟨"", [], ""⟩

/-- Stores the elements of a JSON array into a slice of commands, each element
into a fresh zero command. -/
def storeCommands (elems : List JText) : List clientCommand × Option JsonError :=
  elems.foldl
    (fun st v =>
      let r := storeCommand zeroCommand st.2 v
      (st.1 ++ [r.1], r.2))
    ([], none)

/-- Reference `json.Unmarshal(b, &f)` for `var f interface{}`. -/
def unmarshalAny (s : String) : JVal × Option JsonError :=
  match parse s with
  | Except.error e => (JVal.null, some e)
  | Except.ok v => toInterface v none

/-- Reference `json.Unmarshal(b, &command)` for a zero `clientCommand`. -/
def unmarshalCommand (s : String) : clientCommand × Option JsonError :=
  match parse s with
  | Except.error e => (zeroCommand, some e)
  | Except.ok v => storeCommand zeroCommand none v

/-- Reference `json.Unmarshal(b, &commands)` for a nil `[]clientCommand`. -/
def unmarshalCommands (s : String) : List clientCommand × Option JsonError :=
  match parse s with
  | Except.error e => ([], some e)
  | Except.ok (JText.arr elems) => storeCommands elems
  | Except.ok JText.null => ([], none)
  | Except.ok _ => ([], some (JsonError.unmarshalTypeError "[]clientCommand: want array"))

/-- Whether a JSON value is neither an array nor an object. -/
def JText.isScalar : JText → Bool
  | JText.arr _ => false
  | JText.obj _ => false
  | _ => true

/-! ### Well-formed command objects -/

/-- The value that an object gives to a field: the value of its first member
named after the field, letter case apart. -/
def memberOf (field : String) : List (String × JText) → Option JText
  | [] => none
  | (k, v) :: rest => if foldName k = field then some v else memberOf field rest

/-- Whether a member of a command object is as the wire format has it: "method"
and "uid" are strings, "params" is an object in which every number is within
the range of `float64`; a member with another name is free. -/
def wellFormedMember (kv : String × JText) : Bool :=
  if foldName kv.1 = "method" ∨ foldName kv.1 = "uid" then
    match kv.2 with
    | JText.str _ => true
    | _ => false
  else if foldName kv.1 = "params" then
    match kv.2 with
    | JText.obj members => membersInRange members
    | _ => false
  else true

/-- Whether a JSON value is a well-formed command object: an object whose
members are well formed and have distinct names, letter case apart. -/
def wellFormedCommand : JText → Bool
  | JText.obj members =>
    members.all wellFormedMember && decide ((members.map fun kv => foldName kv.1).Nodup)
  | _ => false

/-- The command that holds `start` and then the fields that the members of an
object give: its "method", its "uid", and its "params" as they are stored in
a `map[string]interface{}`; a field the object does not give stays as it is. -/
def fieldsOver (start : clientCommand) (members : List (String × JText)) : clientCommand :=
  { Method :=
      match memberOf "method" members with
      | some (JText.str s) => s
      | _ => start.Method
    Params :=
      match memberOf "params" members with
      | some (JText.obj pm) => (toInterfaceMembers pm start.Params none).1
      | _ => start.Params
    Uid :=
      match memberOf "uid" members with
      | some (JText.str s) => s
      | _ => start.Uid }

/-- The command that a command object spells out; a field the object does not
give is at its zero value. -/
def commandOf : JText → clientCommand
  | JText.obj members => fieldsOver zeroCommand members
  | _ => zeroCommand

/-- Writes a text as a JSON string literal (quote and backslash escaped). -/
def quote (s : String) : String :=
  textOf (34 :: ((codesOf s).flatMap fun ch => if ch = 34 ∨ ch = 92 then [92, ch] else [ch]) ++ [34])

/-- Reference rendering of one response: its method and uid. -/
def renderResponse (r : response) : String :=
  "\x7b\"method\":" ++ quote r.Method ++ ",\"uid\":" ++ quote r.Uid ++ "\x7d"

/-- Reference `multiResponse.toJson`: a JSON array of the responses, `null`
for the nil list. -/
def toJson (mr : List response) : String × Option GoError :=
  match mr with
  | [] => ("null", none)
  | _ :: _ => ("[" ++ ",".intercalate (mr.map renderResponse) ++ "]", none)

/-- A reference environment: the decoders and the encoder above and an
identifier generator that succeeds. -/
def env : Env :=
  { unmarshalAny := unmarshalAny
    unmarshalCommand := unmarshalCommand
    unmarshalCommands := unmarshalCommands
    toJson := toJson
    newV4 := Except.ok ⟨"6ba7b810-9dad-41d1-80b4-00c04fd430c8"⟩ }

/-- The reference environment with an identifier generator that fails. -/
def failingEnv : Env :=
  { unmarshalAny := unmarshalAny
    unmarshalCommand := unmarshalCommand
    unmarshalCommands := unmarshalCommands
    toJson := toJson
    newV4 := Except.error (GoError.uuid "cannot read random bytes") }

/-- A transport whose `Send` always succeeds. -/
def session : Session := ⟨fun _ => none⟩

/-- A session as `newClient` builds it, not yet authenticated. -/
def fresh : client :=
  { mutexLocked := false
    session := session
    uid := "6ba7b810-9dad-41d1-80b4-00c04fd430c8"
    project := ""
    user := ""
    timestamp := 0
    token := ""
    defaultInfo := []
    channelInfo := []
    isAuthenticated := false
    channels := []
    closeChannel := 0 }

end Ref

/-! ## Properties of the dispatcher -/

/-- The session `Ref.fresh` is the one `newClient` builds in the reference
environment. -/
theorem newClient_fresh : newClient Ref.env Ref.session 0 = (some Ref.fresh, none) := rfl

/-- The three handlers of the source return no error and leave the session as
it was, so `handleCommand` never changes the session state. -/
theorem handleCommand_client (c : client) (command : clientCommand) :
    (handleCommand c command).c = c := by
  by_cases h1 : command.Method = "connect"
  · simp [handleCommand, h1, handleConnect]
  · cases hauth : c.isAuthenticated
    · simp [handleCommand, h1, hauth]
    · by_cases h2 : command.Method = "subscribe"
      · simp [handleCommand, h1, h2, hauth, handleSubscribe]
      · by_cases h3 : command.Method = "publish"
        · simp [handleCommand, h1, h2, h3, hauth, handlePublish]
        · simp [handleCommand, h1, h2, h3, hauth]

/-- C1: on a session with `isAuthenticated = false`, a command whose method is
not "connect" (whatever its params and uid) makes `handleCommand` return
`ErrUnauthorized` with the empty response, and no handler is called. -/
theorem handleCommand_unauthorized (c : client) (command : clientCommand)
    (hauth : c.isAuthenticated = false) (hmethod : command.Method ≠ "connect") :
    (handleCommand c command).err = some GoError.ErrUnauthorized ∧
      (handleCommand c command).resp = response.zero ∧
      (handleCommand c command).events = [] := by
  simp [handleCommand, hauth, hmethod]

/-- Witness of C1: "subscribe" on the fresh session. -/
theorem handleCommand_unauthorized_witness :
    (handleCommand Ref.fresh ⟨"subscribe", [], "a"⟩).err = some GoError.ErrUnauthorized ∧
      (handleCommand Ref.fresh ⟨"subscribe", [], "a"⟩).resp = response.zero ∧
      (handleCommand Ref.fresh ⟨"subscribe", [], "a"⟩).events = [] :=
  handleCommand_unauthorized Ref.fresh ⟨"subscribe", [], "a"⟩ (by decide) (by decide)

/-- A response returned without error carries the method and uid of its command. -/
theorem handleCommand_resp_of_ok (c : client) (command : clientCommand)
    (hok : (handleCommand c command).err = none) :
    (handleCommand c command).resp.Method = command.Method ∧
      (handleCommand c command).resp.Uid = command.Uid := by
  by_cases h1 : command.Method = "connect"
  · simp [handleCommand, h1, handleConnect]
  · cases hauth : c.isAuthenticated
    · simp [handleCommand, h1, hauth] at hok
    · by_cases h2 : command.Method = "subscribe"
      · simp [handleCommand, h1, h2, hauth, handleSubscribe]
      · by_cases h3 : command.Method = "publish"
        · simp [handleCommand, h1, h2, h3, hauth, handlePublish]
        · simp [handleCommand, h1, h2, h3, hauth] at hok

/-- C2: whenever `handleCommand` returns no error, the response it returns has
the `Method` and the `Uid` of the command. -/
theorem handleCommand_stamps (c : client) (command : clientCommand)
    (hok : (handleCommand c command).err = none) :
    (handleCommand c command).resp.Method = command.Method ∧
      (handleCommand c command).resp.Uid = command.Uid :=
  handleCommand_resp_of_ok c command hok

/-- Witness of C2: a "connect" command with uid "1" on the fresh session. -/
theorem handleCommand_stamps_witness :
    (handleCommand Ref.fresh ⟨"connect", [], "1"⟩).resp.Method = "connect" ∧
      (handleCommand Ref.fresh ⟨"connect", [], "1"⟩).resp.Uid = "1" :=
  handleCommand_stamps Ref.fresh ⟨"connect", [], "1"⟩ (by decide)

/-- Handler calls are not transport sends. -/
theorem sends_append (xs ys : List Event) : sends (xs ++ ys) = sends xs ++ sends ys := by
  induction xs with
  | nil => rfl
  | cons x xs ih => cases x <;> simp [sends, ih]

/-- The dispatcher of one command sends nothing. -/
theorem handleCommand_sends (c : client) (command : clientCommand) :
    sends (handleCommand c command).events = [] := by
  by_cases h1 : command.Method = "connect"
  · simp [handleCommand, h1, handleConnect, sends]
  · cases hauth : c.isAuthenticated
    · simp [handleCommand, h1, hauth, sends]
    · by_cases h2 : command.Method = "subscribe"
      · simp [handleCommand, h1, h2, hauth, handleSubscribe, sends]
      · by_cases h3 : command.Method = "publish"
        · simp [handleCommand, h1, h2, h3, hauth, handlePublish, sends]
        · simp [handleCommand, h1, h2, h3, hauth, sends]

/-- The loop at a command that fails. -/
theorem handleCommandsLoop_cons_err (c : client) (mr : List response)
    (command : clientCommand) (rest : List clientCommand) (err : GoError)
    (herr : (handleCommand c command).err = some err) :
    handleCommandsLoop c mr (command :: rest) =
      ((handleCommand c command).c, (handleCommand c command).events, mr, some err) := by
  simp [handleCommandsLoop, herr]

/-- The loop at a command that is accepted. -/
theorem handleCommandsLoop_cons_ok (c : client) (mr : List response)
    (command : clientCommand) (rest : List clientCommand)
    (herr : (handleCommand c command).err = none) :
    handleCommandsLoop c mr (command :: rest) =
      ((handleCommandsLoop (handleCommand c command).c
          (mr ++ [(handleCommand c command).resp]) rest).1,
        (handleCommand c command).events ++
          (handleCommandsLoop (handleCommand c command).c
            (mr ++ [(handleCommand c command).resp]) rest).2.1,
        (handleCommandsLoop (handleCommand c command).c
          (mr ++ [(handleCommand c command).resp]) rest).2.2.1,
        (handleCommandsLoop (handleCommand c command).c
          (mr ++ [(handleCommand c command).resp]) rest).2.2.2) := by
  simp [handleCommandsLoop, herr]

/-- The loop of `handleCommands` sends nothing, however far it gets. -/
theorem handleCommandsLoop_sends (c : client) (mr : List response)
    (commands : List clientCommand) :
    sends (handleCommandsLoop c mr commands).2.1 = [] := by
  induction commands generalizing c mr with
  | nil => rfl
  | cons command rest ih =>
    cases herr : (handleCommand c command).err with
    | some err =>
      rw [handleCommandsLoop_cons_err c mr command rest err herr]
      exact handleCommand_sends c command
    | none =>
      rw [handleCommandsLoop_cons_ok c mr command rest herr]
      simp only [sends_append, handleCommand_sends, List.nil_append]
      exact ih _ _

/-- The loop of `handleCommands` leaves the session state as it was. -/
theorem handleCommandsLoop_client (c : client) (mr : List response)
    (commands : List clientCommand) :
    (handleCommandsLoop c mr commands).1 = c := by
  induction commands generalizing c mr with
  | nil => rfl
  | cons command rest ih =>
    cases herr : (handleCommand c command).err with
    | some err =>
      rw [handleCommandsLoop_cons_err c mr command rest err herr]
      exact handleCommand_client c command
    | none =>
      rw [handleCommandsLoop_cons_ok c mr command rest herr]
      simp only []
      rw [ih, handleCommand_client]

/-- The loop stops with the error of the first command that fails. -/
theorem handleCommandsLoop_first_failure (c : client) (mr : List response)
    (before : List clientCommand) (failing : clientCommand) (after : List clientCommand)
    (e : GoError) (hbefore : allAccepted c before = true)
    (hfail : (handleCommand (clientAfter c before) failing).err = some e) :
    (handleCommandsLoop c mr (before ++ failing :: after)).2.2.2 = some e := by
  induction before generalizing c mr with
  | nil =>
    simp only [clientAfter] at hfail
    rw [List.nil_append, handleCommandsLoop_cons_err c mr failing after e hfail]
  | cons command rest ih =>
    simp only [allAccepted, Bool.and_eq_true, Option.isNone_iff_eq_none] at hbefore
    simp only [clientAfter] at hfail
    rw [List.cons_append, handleCommandsLoop_cons_ok c mr command _ hbefore.1]
    exact ih _ _ hbefore.2 hfail

/-- When every command is accepted the loop ends without error, and the list it
has built is the initial one followed by one response per command, in order,
each with the `Method` and `Uid` of its command. -/
theorem handleCommandsLoop_all_accepted (c : client) (mr : List response)
    (commands : List clientCommand) (hall : allAccepted c commands = true) :
    (handleCommandsLoop c mr commands).2.2.2 = none ∧
      (handleCommandsLoop c mr commands).2.2.1.map (fun r => (r.Method, r.Uid)) =
        mr.map (fun r => (r.Method, r.Uid)) ++
          commands.map (fun command => (command.Method, command.Uid)) := by
  induction commands generalizing c mr with
  | nil => simp [handleCommandsLoop]
  | cons command rest ih =>
    simp only [allAccepted, Bool.and_eq_true, Option.isNone_iff_eq_none] at hall
    rw [handleCommandsLoop_cons_ok c mr command rest hall.1]
    have hrec := ih (handleCommand c command).c (mr ++ [(handleCommand c command).resp]) hall.2
    have hst := handleCommand_resp_of_ok c command hall.1
    refine ⟨hrec.1, ?_⟩
    simp only []
    rw [hrec.2]
    simp [hst.1, hst.2]

/-- What `handleCommands` does when its loop stops at an error. -/
theorem handleCommands_of_loop_err (env : Env) (c : client) (commands : List clientCommand)
    (e : GoError) (hloop : (handleCommandsLoop c [] commands).2.2.2 = some e) :
    handleCommands env c commands =
      ⟨(handleCommandsLoop c [] commands).1, (handleCommandsLoop c [] commands).2.1, some e⟩ := by
  unfold handleCommands
  rcases hres : handleCommandsLoop c [] commands with ⟨c1, events, mr, err⟩
  rw [hres] at hloop
  simp only [] at hloop
  subst hloop
  rfl

/-- What `handleCommands` does when its loop ends without error and the
response list serialises. -/
theorem handleCommands_of_loop_ok (env : Env) (c : client) (commands : List clientCommand)
    (hloop : (handleCommandsLoop c [] commands).2.2.2 = none)
    (hjson : (env.toJson (responsesOf c commands)).2 = none) :
    handleCommands env c commands =
      ⟨c, (handleCommandsLoop c [] commands).2.1 ++
          [Event.sent (env.toJson (responsesOf c commands)).1],
        c.session.Send (env.toJson (responsesOf c commands)).1⟩ := by
  have hc := handleCommandsLoop_client c [] commands
  unfold handleCommands
  unfold responsesOf at hjson ⊢
  rcases hres : handleCommandsLoop c [] commands with ⟨c1, events, mr, err⟩
  rw [hres] at hloop hjson hc
  simp only [] at hloop hjson hc
  subst hloop
  subst hc
  rcases hj : env.toJson mr with ⟨text, jerr⟩
  rw [hj] at hjson
  simp only [] at hjson
  subst hjson
  simp only [hj]

/-- C3: when some command of the list is the first one whose `handleCommand`
fails (those before it are all accepted, in order), `handleCommands` returns
that command's error and performs no transport `Send`, so no response is sent
for the commands before it either. In particular the batch
[subscribe, publish] on a session that is not authenticated returns
`ErrUnauthorized` and sends nothing. -/
theorem handleCommands_first_failure (env : Env) (c : client) :
    (∀ (before : List clientCommand) (failing : clientCommand)
        (after : List clientCommand) (e : GoError),
        allAccepted c before = true →
        (handleCommand (clientAfter c before) failing).err = some e →
        (handleCommands env c (before ++ failing :: after)).err = some e ∧
          sends (handleCommands env c (before ++ failing :: after)).events = []) ∧
      (c.isAuthenticated = false →
        ∀ (ps1 ps2 : params) (uid1 uid2 : String),
          (handleCommands env c [⟨"subscribe", ps1, uid1⟩, ⟨"publish", ps2, uid2⟩]).err =
              some GoError.ErrUnauthorized ∧
            sends (handleCommands env c
              [⟨"subscribe", ps1, uid1⟩, ⟨"publish", ps2, uid2⟩]).events = []) := by
  have general : ∀ (before : List clientCommand) (failing : clientCommand)
      (after : List clientCommand) (e : GoError),
      allAccepted c before = true →
      (handleCommand (clientAfter c before) failing).err = some e →
      (handleCommands env c (before ++ failing :: after)).err = some e ∧
        sends (handleCommands env c (before ++ failing :: after)).events = [] := by
    intro before failing after e hbefore hfail
    have hloop := handleCommandsLoop_first_failure c [] before failing after e hbefore hfail
    rw [handleCommands_of_loop_err env c _ e hloop]
    exact ⟨rfl, handleCommandsLoop_sends c [] _⟩
  refine ⟨general, ?_⟩
  intro hauth ps1 ps2 uid1 uid2
  have hfail : (handleCommand (clientAfter c []) ⟨"subscribe", ps1, uid1⟩).err =
      some GoError.ErrUnauthorized := by
    simp [clientAfter, handleCommand, hauth]
  exact general [] ⟨"subscribe", ps1, uid1⟩ [⟨"publish", ps2, uid2⟩] _ rfl hfail

/-- Witness of C3: on an authenticated session the batch
[connect, unknown, publish] fails at its second command with
`ErrMethodNotFound`; on the fresh session [subscribe, publish] fails with
`ErrUnauthorized`; nothing is sent in either case. -/
theorem handleCommands_first_failure_witness :
    ((handleCommands Ref.env { Ref.fresh with isAuthenticated := true }
          ([⟨"connect", [], "1"⟩] ++ ⟨"unknown", [], "2"⟩ :: [⟨"publish", [], "3"⟩])).err =
        some GoError.ErrMethodNotFound ∧
      sends (handleCommands Ref.env { Ref.fresh with isAuthenticated := true }
          ([⟨"connect", [], "1"⟩] ++ ⟨"unknown", [], "2"⟩ :: [⟨"publish", [], "3"⟩])).events =
        []) ∧
    ((handleCommands Ref.env Ref.fresh [⟨"subscribe", [], "a"⟩, ⟨"publish", [], "b"⟩]).err =
        some GoError.ErrUnauthorized ∧
      sends (handleCommands Ref.env Ref.fresh
          [⟨"subscribe", [], "a"⟩, ⟨"publish", [], "b"⟩]).events = []) :=
  ⟨(handleCommands_first_failure Ref.env { Ref.fresh with isAuthenticated := true }).1
      [⟨"connect", [], "1"⟩] ⟨"unknown", [], "2"⟩ [⟨"publish", [], "3"⟩]
      GoError.ErrMethodNotFound (by decide) (by decide),
    (handleCommands_first_failure Ref.env Ref.fresh).2 (by decide) [] [] "a" "b"⟩

/-- C4: when `handleCommand` accepts every one of the N commands, the response
list built by `handleCommands` has exactly N elements, the i-th with the
`Method` and `Uid` of the i-th command; and when that list serialises without
error, `handleCommands` performs exactly one transport `Send`, of its
serialisation, and returns what that `Send` returns. For a message that is a
single command object (classified "map" and decoded to `command`), the list
is the single response to `command`, and `handleMessage` sends exactly its
serialisation. -/
theorem handleCommands_all_accepted (env : Env) (c : client) :
    (∀ commands : List clientCommand, allAccepted c commands = true →
      (responsesOf c commands).length = commands.length ∧
        (responsesOf c commands).map (fun r => (r.Method, r.Uid)) =
          commands.map (fun command => (command.Method, command.Uid)) ∧
        ((env.toJson (responsesOf c commands)).2 = none →
          sends (handleCommands env c commands).events =
              [(env.toJson (responsesOf c commands)).1] ∧
            (handleCommands env c commands).err =
              c.session.Send (env.toJson (responsesOf c commands)).1)) ∧
      (∀ (msg : String) (command : clientCommand),
        getMessageType env msg = ("map", none) →
        env.unmarshalCommand msg = (command, none) →
        (handleCommand c command).err = none →
        (env.toJson [(handleCommand c command).resp]).2 = none →
        responsesOf c [command] = [(handleCommand c command).resp] ∧
          (handleCommand c command).resp.Method = command.Method ∧
          (handleCommand c command).resp.Uid = command.Uid ∧
          sends (handleMessage env c msg).events =
            [(env.toJson [(handleCommand c command).resp]).1] ∧
          (handleMessage env c msg).err =
            c.session.Send (env.toJson [(handleCommand c command).resp]).1) := by
  have batch : ∀ commands : List clientCommand, allAccepted c commands = true →
      (responsesOf c commands).length = commands.length ∧
        (responsesOf c commands).map (fun r => (r.Method, r.Uid)) =
          commands.map (fun command => (command.Method, command.Uid)) ∧
        ((env.toJson (responsesOf c commands)).2 = none →
          sends (handleCommands env c commands).events =
              [(env.toJson (responsesOf c commands)).1] ∧
            (handleCommands env c commands).err =
              c.session.Send (env.toJson (responsesOf c commands)).1) := by
    intro commands hall
    have hloop := handleCommandsLoop_all_accepted c [] commands hall
    have hmap : (responsesOf c commands).map (fun r => (r.Method, r.Uid)) =
        commands.map (fun command => (command.Method, command.Uid)) := by
      simpa [responsesOf] using hloop.2
    refine ⟨?_, hmap, ?_⟩
    · have hlen := congrArg List.length hmap
      simpa using hlen
    · intro hjson
      rw [handleCommands_of_loop_ok env c commands hloop.1 hjson]
      simp [sends_append, handleCommandsLoop_sends, sends]
  refine ⟨batch, ?_⟩
  intro msg command htype hdecode hok hjson
  have hresp : responsesOf c [command] = [(handleCommand c command).resp] := by
    simp [responsesOf, handleCommandsLoop, hok]
  have hall : allAccepted c [command] = true := by
    simp [allAccepted, hok]
  have hsend := (batch [command] hall).2.2 (by rw [hresp]; exact hjson)
  rw [hresp] at hsend
  have hmsg : handleMessage env c msg = handleCommands env c [command] := by
    simp [handleMessage, htype, getCommandsFromClientMessage, hdecode]
  have hst := handleCommand_resp_of_ok c command hok
  rw [hmsg]
  exact ⟨hresp, hst.1, hst.2, hsend.1, hsend.2⟩

/-- Witness of C4: the batch [connect "1", subscribe "2"] on an authenticated
session is answered by one `Send` of a list of two responses, and the single
command object of the spec, on the fresh session, by one `Send` of a list of
one response. -/
theorem handleCommands_all_accepted_witness :
    (sends (handleCommands Ref.env { Ref.fresh with isAuthenticated := true }
          [⟨"connect", [], "1"⟩, ⟨"subscribe", [], "2"⟩]).events =
        ["[\x7b\"method\":\"connect\",\"uid\":\"1\"\x7d,\x7b\"method\":\"subscribe\",\"uid\":\"2\"\x7d]"] ∧
      (handleCommands Ref.env { Ref.fresh with isAuthenticated := true }
          [⟨"connect", [], "1"⟩, ⟨"subscribe", [], "2"⟩]).err = none) ∧
    (sends (handleMessage Ref.env Ref.fresh
          "\x7b\"method\":\"connect\",\"params\":\x7b\x7d,\"uid\":\"1\"\x7d").events =
        ["[\x7b\"method\":\"connect\",\"uid\":\"1\"\x7d]"] ∧
      (handleMessage Ref.env Ref.fresh
          "\x7b\"method\":\"connect\",\"params\":\x7b\x7d,\"uid\":\"1\"\x7d").err = none) :=
  ⟨((handleCommands_all_accepted Ref.env { Ref.fresh with isAuthenticated := true }).1
      [⟨"connect", [], "1"⟩, ⟨"subscribe", [], "2"⟩] (by decide)).2.2 (by decide),
    ((handleCommands_all_accepted Ref.env Ref.fresh).2
      "\x7b\"method\":\"connect\",\"params\":\x7b\x7d,\"uid\":\"1\"\x7d"
      ⟨"connect", [], "1"⟩ (by decide) (by rfl) (by decide) (by decide)).2.2.2⟩

/-- C5, as stated, fails: on the fresh session the command
(connect, no params, uid "1") is handled without error and `isAuthenticated`
is still false afterwards, not true. -/
theorem handleCommand_connect_not_authenticated :
    Ref.fresh.isAuthenticated = false ∧
      (handleCommand Ref.fresh ⟨"connect", [], "1"⟩).err = none ∧
      ¬ (handleCommand Ref.fresh ⟨"connect", [], "1"⟩).c.isAuthenticated = true := by
  decide

/-- C5, amended: `handleCommand` on a command whose method is "connect"
succeeds, and afterwards the `isAuthenticated` field of the session has the
value it had before (the `handleConnect` of the source sets nothing); on a
session that was not authenticated, a fresh one in particular, it is still
false. -/
theorem handleCommand_connect_keeps_flag (c : client) (command : clientCommand)
    (hmethod : command.Method = "connect") :
    (handleCommand c command).err = none ∧
      (handleCommand c command).c.isAuthenticated = c.isAuthenticated ∧
      (c.isAuthenticated = false → (handleCommand c command).c.isAuthenticated = false) := by
  have hsame := handleCommand_client c command
  rw [hsame]
  refine ⟨?_, rfl, fun h => h⟩
  simp [handleCommand, hmethod, handleConnect]

/-- Witness of the amended C5: "connect" on the fresh session. -/
theorem handleCommand_connect_keeps_flag_witness :
    (handleCommand Ref.fresh ⟨"connect", [], "1"⟩).err = none ∧
      (handleCommand Ref.fresh ⟨"connect", [], "1"⟩).c.isAuthenticated =
        Ref.fresh.isAuthenticated ∧
      (Ref.fresh.isAuthenticated = false →
        (handleCommand Ref.fresh ⟨"connect", [], "1"⟩).c.isAuthenticated = false) :=
  handleCommand_connect_keeps_flag Ref.fresh ⟨"connect", [], "1"⟩ (by decide)

/-- C6: on a session with `isAuthenticated = false`, a command whose method is
not "connect" leaves the session state exactly as it was: `isAuthenticated`
is still false, `channels` and every other field are unchanged. -/
theorem handleCommand_unauthorized_frame (c : client) (command : clientCommand)
    (hauth : c.isAuthenticated = false) (hmethod : command.Method ≠ "connect") :
    (handleCommand c command).c = c ∧
      (handleCommand c command).c.isAuthenticated = false ∧
      (handleCommand c command).c.channels = c.channels := by
  have hsame : (handleCommand c command).c = c := by
    simp [handleCommand, hauth, hmethod]
  rw [hsame]
  exact ⟨rfl, hauth, rfl⟩

/-- Witness of C6: "publish" on the fresh session. -/
theorem handleCommand_unauthorized_frame_witness :
    (handleCommand Ref.fresh ⟨"publish", [], "b"⟩).c = Ref.fresh ∧
      (handleCommand Ref.fresh ⟨"publish", [], "b"⟩).c.isAuthenticated = false ∧
      (handleCommand Ref.fresh ⟨"publish", [], "b"⟩).c.channels = Ref.fresh.channels :=
  handleCommand_unauthorized_frame Ref.fresh ⟨"publish", [], "b"⟩ (by decide) (by decide)

/-- C7: on a session with `isAuthenticated = true`, a command whose method is
none of "connect", "subscribe", "publish" (the empty method included) makes
`handleCommand` return `ErrMethodNotFound` with the empty response; and for
each of the three listed methods, on any session, the error returned is not
`ErrMethodNotFound`. -/
theorem handleCommand_method_not_found (c : client) (command : clientCommand) :
    (c.isAuthenticated = true → command.Method ≠ "connect" →
      command.Method ≠ "subscribe" → command.Method ≠ "publish" →
      (handleCommand c command).err = some GoError.ErrMethodNotFound ∧
        (handleCommand c command).resp = response.zero) ∧
    (command.Method = "connect" ∨ command.Method = "subscribe" ∨
        command.Method = "publish" →
      (handleCommand c command).err ≠ some GoError.ErrMethodNotFound) := by
  constructor
  · intro hauth h1 h2 h3
    simp [handleCommand, hauth, h1, h2, h3]
  · intro hm
    cases hauth : c.isAuthenticated <;>
      rcases hm with h | h | h <;>
      simp [handleCommand, hauth, h, handleConnect, handleSubscribe, handlePublish]

/-- Witness of C7: the empty method on an authenticated session is not found,
"subscribe" on the same session is. -/
theorem handleCommand_method_not_found_witness :
    ((handleCommand { Ref.fresh with isAuthenticated := true } ⟨"", [], "7"⟩).err =
        some GoError.ErrMethodNotFound ∧
      (handleCommand { Ref.fresh with isAuthenticated := true } ⟨"", [], "7"⟩).resp =
        response.zero) ∧
    (handleCommand { Ref.fresh with isAuthenticated := true } ⟨"subscribe", [], "8"⟩).err ≠
      some GoError.ErrMethodNotFound :=
  ⟨(handleCommand_method_not_found { Ref.fresh with isAuthenticated := true }
      ⟨"", [], "7"⟩).1 (by decide) (by decide) (by decide) (by decide),
    (handleCommand_method_not_found { Ref.fresh with isAuthenticated := true }
      ⟨"subscribe", [], "8"⟩).2 (by decide)⟩

/-! ## Properties of the classifier and the extractor -/

/-- C8: when the message parses as JSON (the generic `json.Unmarshal` returns
no error and leaves the value `f`), `getMessageType` returns "map" with no
error exactly when `f` is an object, "array" with no error exactly when `f`
is an array, and the empty type with `ErrInvalidClientMessage` when `f` is a
string, a number, a boolean or null. -/
theorem getMessageType_classifies (env : Env) (msgBytes : String) (f : JVal)
    (hparse : env.unmarshalAny msgBytes = (f, none)) :
    (getMessageType env msgBytes = ("map", none) ↔ f.isObject = true) ∧
      (getMessageType env msgBytes = ("array", none) ↔ f.isArray = true) ∧
      ((f = JVal.null ∨ (∃ b, f = JVal.bool b) ∨ (∃ l, f = JVal.num l) ∨
          (∃ t, f = JVal.str t)) →
        getMessageType env msgBytes = ("", some GoError.ErrInvalidClientMessage)) := by
  cases f <;> simp [getMessageType, hparse, JVal.isObject, JVal.isArray]

/-- Witness of C8: the bare JSON string "hello" parses and is neither a map
nor an array. -/
theorem getMessageType_classifies_witness :
    (getMessageType Ref.env "\"hello\"" = ("map", none) ↔
        (JVal.str "hello").isObject = true) ∧
      (getMessageType Ref.env "\"hello\"" = ("array", none) ↔
        (JVal.str "hello").isArray = true) ∧
      ((JVal.str "hello" = JVal.null ∨ (∃ b, JVal.str "hello" = JVal.bool b) ∨
          (∃ l, JVal.str "hello" = JVal.num l) ∨ (∃ t, JVal.str "hello" = JVal.str t)) →
        getMessageType Ref.env "\"hello\"" = ("", some GoError.ErrInvalidClientMessage)) :=
  getMessageType_classifies Ref.env "\"hello\"" (JVal.str "hello") (by rfl)

/-- C9, as stated, fails: the text `hello` (no quotes) does not parse as JSON,
and the error that `getMessageType` and `handleMessage` return for it is the
error of the decoder, not `ErrInvalidClientMessage`. -/
theorem getMessageType_parse_failure_not_invalid :
    (Ref.env.unmarshalAny "hello").2 ≠ none ∧
      (getMessageType Ref.env "hello").2 ≠ some GoError.ErrInvalidClientMessage ∧
      (handleMessage Ref.env Ref.fresh "hello").err ≠
        some GoError.ErrInvalidClientMessage := by
  decide

/-- C9, amended: when the message fails to parse as JSON (the generic
`json.Unmarshal` returns the error `e`), `getMessageType` returns the empty
type with that error `e`, which is an `encoding/json` error and not
`ErrInvalidClientMessage`; and `handleMessage` returns the same error, sends
nothing, calls no handler and leaves the session as it was. -/
theorem getMessageType_parse_failure (env : Env) (msgBytes : String) (f : JVal)
    (e : JsonError) (hparse : env.unmarshalAny msgBytes = (f, some e)) :
    getMessageType env msgBytes = ("", some (GoError.json e)) ∧
      GoError.json e ≠ GoError.ErrInvalidClientMessage ∧
      (∀ c : client, (handleMessage env c msgBytes).err = some (GoError.json e) ∧
        (handleMessage env c msgBytes).events = [] ∧
        (handleMessage env c msgBytes).c = c) := by
  have htype : getMessageType env msgBytes = ("", some (GoError.json e)) := by
    simp [getMessageType, hparse]
  refine ⟨htype, by simp, ?_⟩
  intro c
  simp [handleMessage, htype]

/-- Witness of the amended C9: the text `hello` (no quotes). -/
theorem getMessageType_parse_failure_witness :
    getMessageType Ref.env "hello" =
        ("", some (GoError.json (JsonError.syntaxError "invalid JSON text"))) ∧
      GoError.json (JsonError.syntaxError "invalid JSON text") ≠
        GoError.ErrInvalidClientMessage ∧
      (∀ c : client,
        (handleMessage Ref.env c "hello").err =
            some (GoError.json (JsonError.syntaxError "invalid JSON text")) ∧
          (handleMessage Ref.env c "hello").events = [] ∧
          (handleMessage Ref.env c "hello").c = c) :=
  getMessageType_parse_failure Ref.env "hello" JVal.null
    (JsonError.syntaxError "invalid JSON text") (by rfl)

/-- C10, as stated, fails: in the batch
`[{"method":"a"},{"method":5}]` the second element has a method that is not a
string; `getCommandsFromClientMessage` returns no command, and the error it
returns is the error of the decoder, not `ErrInvalidClientMessage`. The same
holds for the single object `{"method":"a","uid":5}`. -/
theorem getCommands_decode_failure_not_invalid :
    (getCommandsFromClientMessage Ref.env
        "[\x7b\"method\":\"a\"\x7d,\x7b\"method\":5\x7d]" "array").2 ≠ none ∧
      (getCommandsFromClientMessage Ref.env
        "[\x7b\"method\":\"a\"\x7d,\x7b\"method\":5\x7d]" "array").2 ≠
          some GoError.ErrInvalidClientMessage ∧
      (getCommandsFromClientMessage Ref.env
        "\x7b\"method\":\"a\",\"uid\":5\x7d" "map").2 ≠ none ∧
      (getCommandsFromClientMessage Ref.env
        "\x7b\"method\":\"a\",\"uid\":5\x7d" "map").2 ≠
          some GoError.ErrInvalidClientMessage := by
  decide

/-- C10, amended: when the object of a message classified "map", or the array
of a message classified "array", fails to decode (`json.Unmarshal` returns
the error `e`), `getCommandsFromClientMessage` returns no command at all,
whatever the decoder had filled in before it failed, together with that error
`e`, which is an `encoding/json` error and not `ErrInvalidClientMessage`. -/
theorem getCommands_decode_failure (env : Env) (msgBytes : String) (e : JsonError) :
    (∀ command : clientCommand, env.unmarshalCommand msgBytes = (command, some e) →
      getCommandsFromClientMessage env msgBytes "map" = ([], some (GoError.json e))) ∧
    (∀ decoded : List clientCommand, env.unmarshalCommands msgBytes = (decoded, some e) →
      getCommandsFromClientMessage env msgBytes "array" = ([], some (GoError.json e))) ∧
    GoError.json e ≠ GoError.ErrInvalidClientMessage := by
  refine ⟨?_, ?_, by simp⟩
  · intro command hdecode
    simp [getCommandsFromClientMessage, hdecode]
  · intro decoded hdecode
    simp [getCommandsFromClientMessage, hdecode]

/-- Witness of the amended C10: the object `{"method":"a","uid":5}` and the
batch `[{"method":"a"},{"method":5}]`; for the batch the decoder has filled
in two commands when it reports the error, and none is returned. -/
theorem getCommands_decode_failure_witness :
    getCommandsFromClientMessage Ref.env "\x7b\"method\":\"a\",\"uid\":5\x7d" "map" =
        ([], some (GoError.json
          (JsonError.unmarshalTypeError "clientCommand.Uid: want string"))) ∧
      getCommandsFromClientMessage Ref.env
          "[\x7b\"method\":\"a\"\x7d,\x7b\"method\":5\x7d]" "array" =
        ([], some (GoError.json
          (JsonError.unmarshalTypeError "clientCommand.Method: want string"))) :=
  ⟨(getCommands_decode_failure Ref.env "\x7b\"method\":\"a\",\"uid\":5\x7d"
      (JsonError.unmarshalTypeError "clientCommand.Uid: want string")).1
      ⟨"a", [], ""⟩ (by rfl),
    (getCommands_decode_failure Ref.env "[\x7b\"method\":\"a\"\x7d,\x7b\"method\":5\x7d]"
      (JsonError.unmarshalTypeError "clientCommand.Method: want string")).2.1
      [⟨"a", [], ""⟩, ⟨"", [], ""⟩] (by rfl)⟩

/-! ## Properties of whole messages and of the session -/

/-- The dispatcher of a command list leaves the session state as it was. -/
theorem handleCommands_client (env : Env) (c : client) (commands : List clientCommand) :
    (handleCommands env c commands).c = c := by
  have hc := handleCommandsLoop_client c [] commands
  unfold handleCommands
  rcases hres : handleCommandsLoop c [] commands with ⟨c1, events, mr, err⟩
  rw [hres] at hc
  simp only [] at hc
  subst hc
  cases err with
  | some e => rfl
  | none =>
    rcases hj : env.toJson mr with ⟨text, jerr⟩
    cases jerr <;> simp [hj]

/-- The handler of a message leaves the session state as it was. -/
theorem handleMessage_client (env : Env) (c : client) (msg : String) :
    (handleMessage env c msg).c = c := by
  rcases ht : getMessageType env msg with ⟨msgType, terr⟩
  cases terr with
  | some e => simp [handleMessage, ht]
  | none =>
    rcases hcs : getCommandsFromClientMessage env msg msgType with ⟨commands, cerr⟩
    cases cerr with
    | some e => simp [handleMessage, ht, hcs]
    | none =>
      simp only [handleMessage, ht, hcs]
      exact handleCommands_client env c commands

/-- A message that is classified and decoded is handled as its command list. -/
theorem handleMessage_of_commands (env : Env) (c : client) (msg msgType : String)
    (commands : List clientCommand) (htype : getMessageType env msg = (msgType, none))
    (hdecode : getCommandsFromClientMessage env msg msgType = (commands, none)) :
    handleMessage env c msg = handleCommands env c commands := by
  simp [handleMessage, htype, hdecode]

/-- C13: `handleMessage` leaves `isAuthenticated` as it was, for every session
state and every message. So it never changes it from true to false; and if it
were false before and true after, the message would contain a command with
method "connect" that was handled successfully (no message of the source
produces that change, see C16). -/
theorem handleMessage_isAuthenticated (env : Env) (c : client) (msg : String) :
    (handleMessage env c msg).c.isAuthenticated = c.isAuthenticated ∧
      (c.isAuthenticated = true → (handleMessage env c msg).c.isAuthenticated = true) ∧
      (c.isAuthenticated = false → (handleMessage env c msg).c.isAuthenticated = true →
        ∃ (msgType : String) (commands : List clientCommand) (command : clientCommand),
          getMessageType env msg = (msgType, none) ∧
          getCommandsFromClientMessage env msg msgType = (commands, none) ∧
          command ∈ commands ∧ command.Method = "connect" ∧
          (handleCommand c command).err = none) := by
  have hsame := handleMessage_client env c msg
  rw [hsame]
  refine ⟨rfl, fun h => h, ?_⟩
  intro hbefore hafter
  rw [hbefore] at hafter
  exact absurd hafter (by decide)

/-- Witness of C13: an authenticated session stays authenticated across a
message that fails (an unknown method). -/
theorem handleMessage_isAuthenticated_witness :
    (handleMessage Ref.env { Ref.fresh with isAuthenticated := true }
      "\x7b\"method\":\"logout\",\"uid\":\"9\"\x7d").c.isAuthenticated = true :=
  (handleMessage_isAuthenticated Ref.env { Ref.fresh with isAuthenticated := true }
    "\x7b\"method\":\"logout\",\"uid\":\"9\"\x7d").2.1 (by decide)

/-- C14: when the identifier generator succeeds, `newClient` returns a session
in the initial state and no error: `isAuthenticated` is false, `getUid` gives
the string form of the generated identifier, the transport and the close
signal are the ones passed in, and project, user, token and channels are
empty; when the generator fails, `newClient` returns no session and the
error of the generator. -/
theorem newClient_initial (env : Env) (session : Session) (closeChannel : Nat) :
    (∀ uid : UUID, env.newV4 = Except.ok uid →
      ∃ c : client, newClient env session closeChannel = (some c, none) ∧
        c.isAuthenticated = false ∧ getUid c = uid.String ∧
        c.session = session ∧ c.closeChannel = closeChannel ∧
        getProject c = "" ∧ getUser c = "" ∧ c.token = "" ∧ c.channels = []) ∧
    (∀ err : GoError, env.newV4 = Except.error err →
      newClient env session closeChannel = (none, some err)) := by
  constructor
  · intro uid hgen
    simp [newClient, hgen, getUid, getProject, getUser]
  · intro err hgen
    simp [newClient, hgen]

/-- Witness of C14: the reference generator, and a generator that fails. -/
theorem newClient_initial_witness :
    (∃ c : client, newClient Ref.env Ref.session 5 = (some c, none) ∧
        c.isAuthenticated = false ∧
        getUid c = "6ba7b810-9dad-41d1-80b4-00c04fd430c8" ∧
        c.session = Ref.session ∧ c.closeChannel = 5 ∧
        getProject c = "" ∧ getUser c = "" ∧ c.token = "" ∧ c.channels = []) ∧
      newClient Ref.failingEnv Ref.session 5 =
        (none, some (GoError.uuid "cannot read random bytes")) :=
  ⟨(newClient_initial Ref.env Ref.session 5).1
      ⟨"6ba7b810-9dad-41d1-80b4-00c04fd430c8"⟩ (by rfl),
    (newClient_initial Ref.failingEnv Ref.session 5).2
      (GoError.uuid "cannot read random bytes") (by rfl)⟩

/-- On a session that is not authenticated, the loop stops with
`ErrUnauthorized` as soon as the list holds a command other than "connect". -/
theorem handleCommandsLoop_unauthorized (c : client) (mr : List response)
    (commands : List clientCommand) (hauth : c.isAuthenticated = false)
    (hsome : ∃ command ∈ commands, command.Method ≠ "connect") :
    (handleCommandsLoop c mr commands).2.2.2 = some GoError.ErrUnauthorized := by
  induction commands generalizing mr with
  | nil =>
    rcases hsome with ⟨command, hmem, _⟩
    cases hmem
  | cons first rest ih =>
    by_cases hfirst : first.Method = "connect"
    · have hok : (handleCommand c first).err = none := by
        simp [handleCommand, hfirst, handleConnect]
      rw [handleCommandsLoop_cons_ok c mr first rest hok, handleCommand_client]
      apply ih
      rcases hsome with ⟨command, hmem, hne⟩
      rcases List.mem_cons.mp hmem with heq | hin
      · exact absurd (heq ▸ hfirst) hne
      · exact ⟨command, hin, hne⟩
    · have herr : (handleCommand c first).err = some GoError.ErrUnauthorized := by
        simp [handleCommand, hfirst, hauth]
      rw [handleCommandsLoop_cons_err c mr first rest _ herr]

/-- The session state after any list of messages is the one before them. -/
theorem clientAfterMessages_eq (env : Env) (c : client) (msgs : List String) :
    clientAfterMessages env c msgs = c := by
  induction msgs generalizing c with
  | nil => rfl
  | cons msg rest ih =>
    simp only [clientAfterMessages]
    rw [ih, handleMessage_client]

/-- C16: no command handling writes `isAuthenticated`; so on a session with
`isAuthenticated = false`, every command list that holds at least one command
other than "connect" makes `handleCommands` return `ErrUnauthorized` with no
transport `Send`, also when "connect" commands come before it in the list, and
also after any messages handled earlier on the session. -/
theorem handleCommands_never_authenticated (env : Env) (c : client)
    (hauth : c.isAuthenticated = false) :
    (∀ command : clientCommand,
      (handleCommand c command).c.isAuthenticated = c.isAuthenticated) ∧
    (∀ commands : List clientCommand,
      (∃ command ∈ commands, command.Method ≠ "connect") →
      (handleCommands env c commands).err = some GoError.ErrUnauthorized ∧
        sends (handleCommands env c commands).events = []) ∧
    (∀ (earlier : List String) (commands : List clientCommand),
      (∃ command ∈ commands, command.Method ≠ "connect") →
      (clientAfterMessages env c earlier).isAuthenticated = false ∧
        (handleCommands env (clientAfterMessages env c earlier) commands).err =
          some GoError.ErrUnauthorized ∧
        sends (handleCommands env (clientAfterMessages env c earlier) commands).events =
          []) := by
  have now : ∀ commands : List clientCommand,
      (∃ command ∈ commands, command.Method ≠ "connect") →
      (handleCommands env c commands).err = some GoError.ErrUnauthorized ∧
        sends (handleCommands env c commands).events = [] := by
    intro commands hsome
    have hloop := handleCommandsLoop_unauthorized c [] commands hauth hsome
    rw [handleCommands_of_loop_err env c commands _ hloop]
    exact ⟨rfl, handleCommandsLoop_sends c [] commands⟩
  refine ⟨?_, now, ?_⟩
  · intro command
    rw [handleCommand_client]
  · intro earlier commands hsome
    rw [clientAfterMessages_eq]
    exact ⟨hauth, now commands hsome⟩

/-- Witness of C16: on the fresh session the list [connect, connect, subscribe]
fails with `ErrUnauthorized` and sends nothing, also after a "connect" message
that was handled before. -/
theorem handleCommands_never_authenticated_witness :
    ((handleCommands Ref.env Ref.fresh
          [⟨"connect", [], "1"⟩, ⟨"connect", [], "2"⟩, ⟨"subscribe", [], "3"⟩]).err =
        some GoError.ErrUnauthorized ∧
      sends (handleCommands Ref.env Ref.fresh
          [⟨"connect", [], "1"⟩, ⟨"connect", [], "2"⟩, ⟨"subscribe", [], "3"⟩]).events =
        []) ∧
    ((clientAfterMessages Ref.env Ref.fresh
          ["\x7b\"method\":\"connect\",\"params\":\x7b\x7d,\"uid\":\"1\"\x7d"]).isAuthenticated =
        false ∧
      (handleCommands Ref.env
          (clientAfterMessages Ref.env Ref.fresh
            ["\x7b\"method\":\"connect\",\"params\":\x7b\x7d,\"uid\":\"1\"\x7d"])
          [⟨"publish", [], "4"⟩]).err = some GoError.ErrUnauthorized ∧
      sends (handleCommands Ref.env
          (clientAfterMessages Ref.env Ref.fresh
            ["\x7b\"method\":\"connect\",\"params\":\x7b\x7d,\"uid\":\"1\"\x7d"])
          [⟨"publish", [], "4"⟩]).events = []) :=
  ⟨(handleCommands_never_authenticated Ref.env Ref.fresh (by decide)).2.1
      [⟨"connect", [], "1"⟩, ⟨"connect", [], "2"⟩, ⟨"subscribe", [], "3"⟩]
      ⟨⟨"subscribe", [], "3"⟩, by simp, by decide⟩,
    (handleCommands_never_authenticated Ref.env Ref.fresh (by decide)).2.2
      ["\x7b\"method\":\"connect\",\"params\":\x7b\x7d,\"uid\":\"1\"\x7d"]
      [⟨"publish", [], "4"⟩] ⟨⟨"publish", [], "4"⟩, by simp, by decide⟩⟩

/-- C17: on the empty command list, for every session, authenticated or not,
`handleCommands` calls no handler and meets no dispatch error; when the empty
(nil) response list serialises, it performs exactly one transport `Send`, of
that serialisation, and nothing else, and returns what the `Send` returns.
This is what `handleMessage` does on a message classified "array" that
decodes to no command (the message `[]`). -/
theorem handleCommands_empty (env : Env) (c : client)
    (hjson : (env.toJson []).2 = none) :
    responsesOf c [] = [] ∧
      (handleCommandsLoop c [] []).2.2.2 = none ∧
      (handleCommands env c []).events = [Event.sent (env.toJson []).1] ∧
      sends (handleCommands env c []).events = [(env.toJson []).1] ∧
      (handleCommands env c []).err = c.session.Send (env.toJson []).1 ∧
      (∀ msg : String, getMessageType env msg = ("array", none) →
        env.unmarshalCommands msg = ([], none) →
        (handleMessage env c msg).events = [Event.sent (env.toJson []).1] ∧
          (handleMessage env c msg).err = c.session.Send (env.toJson []).1) := by
  have hrun : handleCommands env c [] =
      ⟨c, [Event.sent (env.toJson []).1], c.session.Send (env.toJson []).1⟩ := by
    have h := handleCommands_of_loop_ok env c [] rfl hjson
    simpa [responsesOf, handleCommandsLoop] using h
  refine ⟨rfl, rfl, ?_, ?_, ?_, ?_⟩
  · rw [hrun]
  · rw [hrun]; rfl
  · rw [hrun]
  · intro msg htype hdecode
    have hcs : getCommandsFromClientMessage env msg "array" = ([], none) := by
      simp [getCommandsFromClientMessage, hdecode]
    rw [handleMessage_of_commands env c msg "array" [] htype hcs, hrun]
    exact ⟨rfl, rfl⟩

/-- Witness of C17: the message `[]` on the fresh session and on an
authenticated one; the reference encoder writes the nil list as `null`. -/
theorem handleCommands_empty_witness :
    (handleMessage Ref.env Ref.fresh "[]").events = [Event.sent "null"] ∧
      (handleMessage Ref.env Ref.fresh "[]").err = none ∧
      (handleCommands Ref.env { Ref.fresh with isAuthenticated := true } []).events =
        [Event.sent "null"] :=
  ⟨((handleCommands_empty Ref.env Ref.fresh (by decide)).2.2.2.2.2 "[]"
      (by decide) (by rfl)).1,
    ((handleCommands_empty Ref.env Ref.fresh (by decide)).2.2.2.2.2 "[]"
      (by decide) (by rfl)).2,
    (handleCommands_empty Ref.env { Ref.fresh with isAuthenticated := true }
      (by decide)).2.2.1⟩

/-- C18: the authentication gate comes before the routing: on a session with
`isAuthenticated = false`, a command whose method is none of "connect",
"subscribe", "publish" gets `ErrUnauthorized` and not `ErrMethodNotFound`;
and any two commands other than "connect", known or not, get the very same
result, so a client that is not authenticated cannot tell a known method
from an unknown one. -/
theorem handleCommand_gate_first (c : client) (hauth : c.isAuthenticated = false) :
    (∀ command : clientCommand, command.Method ≠ "connect" →
      command.Method ≠ "subscribe" → command.Method ≠ "publish" →
      (handleCommand c command).err = some GoError.ErrUnauthorized ∧
        (handleCommand c command).err ≠ some GoError.ErrMethodNotFound) ∧
    (∀ known unknown : clientCommand, known.Method ≠ "connect" →
      unknown.Method ≠ "connect" →
      handleCommand c known = handleCommand c unknown) := by
  constructor
  · intro command h1 _ _
    simp [handleCommand, hauth, h1]
  · intro known unknown hk hu
    simp [handleCommand, hauth, hk, hu]

/-- Witness of C18: "subscribe" and the unknown "logout" on the fresh session. -/
theorem handleCommand_gate_first_witness :
    ((handleCommand Ref.fresh ⟨"logout", [], "1"⟩).err = some GoError.ErrUnauthorized ∧
      (handleCommand Ref.fresh ⟨"logout", [], "1"⟩).err ≠
        some GoError.ErrMethodNotFound) ∧
    handleCommand Ref.fresh ⟨"subscribe", [("channel", JVal.str "news")], "2"⟩ =
      handleCommand Ref.fresh ⟨"logout", [], "1"⟩ :=
  ⟨(handleCommand_gate_first Ref.fresh (by decide)).1 ⟨"logout", [], "1"⟩
      (by decide) (by decide) (by decide),
    (handleCommand_gate_first Ref.fresh (by decide)).2
      ⟨"subscribe", [("channel", JVal.str "news")], "2"⟩ ⟨"logout", [], "1"⟩
      (by decide) (by decide)⟩

/-! ## Properties of the reference decoder -/

mutual
/-- Storing a value whose numbers are all within range saves no error. -/
theorem Ref.toInterface_inRange : ∀ (v : Ref.JText) (saved : Option JsonError),
    Ref.numbersInRange v = true → (Ref.toInterface v saved).2 = saved
  | Ref.JText.null, _, _ => rfl
  | Ref.JText.bool _, _, _ => rfl
  | Ref.JText.num literal, saved, h => by
    simp only [Ref.numbersInRange, Option.isSome_iff_exists] at h
    rcases h with ⟨f, hf⟩
    simp [Ref.toInterface, hf]
  | Ref.JText.str _, _, _ => rfl
  | Ref.JText.arr elems, saved, h => by
    simp only [Ref.numbersInRange] at h
    simp only [Ref.toInterface]
    exact Ref.toInterfaceElems_inRange elems saved h
  | Ref.JText.obj members, saved, h => by
    simp only [Ref.numbersInRange] at h
    simp only [Ref.toInterface]
    exact Ref.toInterfaceMembers_inRange members [] saved h
/-- Storing elements whose numbers are all within range saves no error. -/
theorem Ref.toInterfaceElems_inRange : ∀ (elems : List Ref.JText)
    (saved : Option JsonError),
    Ref.elemsInRange elems = true → (Ref.toInterfaceElems elems saved).2 = saved
  | [], _, _ => rfl
  | v :: rest, saved, h => by
    simp only [Ref.elemsInRange, Bool.and_eq_true] at h
    simp only [Ref.toInterfaceElems]
    rw [Ref.toInterface_inRange v saved h.1]
    exact Ref.toInterfaceElems_inRange rest saved h.2
/-- Storing members whose numbers are all within range saves no error. -/
theorem Ref.toInterfaceMembers_inRange : ∀ (members : List (String × Ref.JText))
    (m : List (String × JVal)) (saved : Option JsonError),
    Ref.membersInRange members = true →
    (Ref.toInterfaceMembers members m saved).2 = saved
  | [], _, _, _ => rfl
  | (k, v) :: rest, m, saved, h => by
    simp only [Ref.membersInRange, Bool.and_eq_true] at h
    simp only [Ref.toInterfaceMembers]
    rw [Ref.toInterface_inRange v saved h.1]
    exact Ref.toInterfaceMembers_inRange rest _ saved h.2
end

/-- An object gives no value to a field that none of its members is named
after. -/
theorem Ref.memberOf_none (field : String) (members : List (String × Ref.JText))
    (h : field ∉ members.map fun kv => Ref.foldName kv.1) :
    Ref.memberOf field members = none := by
  induction members with
  | nil => rfl
  | cons kv rest ih =>
    rcases kv with ⟨k, v⟩
    simp only [List.map_cons, List.mem_cons, not_or] at h
    have hne : ¬ Ref.foldName k = field := fun heq => h.1 heq.symm
    simp [Ref.memberOf, hne, ih h.2]

/-- The decoder, folding over the members of a well-formed command object with
distinct names, ends with the fields that the object gives, and no error. -/
theorem Ref.foldl_storeMember (members : List (String × Ref.JText))
    (start : clientCommand)
    (hwf : members.all Ref.wellFormedMember = true)
    (hnames : (members.map fun kv => Ref.foldName kv.1).Nodup) :
    members.foldl Ref.storeMember (start, none) = (Ref.fieldsOver start members, none) := by
  induction members generalizing start with
  | nil => rfl
  | cons kv rest ih =>
    rcases kv with ⟨k, v⟩
    simp only [List.all_cons, Bool.and_eq_true] at hwf
    rcases hwf with ⟨hhead, hrest⟩
    simp only [List.map_cons, List.nodup_cons] at hnames
    have hm : "method" ≠ "params" := by decide
    have hu : "method" ≠ "uid" := by decide
    have hp : "params" ≠ "uid" := by decide
    simp only [List.foldl_cons]
    by_cases h1 : Ref.foldName k = "method"
    · have hnone : Ref.memberOf "method" rest = none :=
        Ref.memberOf_none "method" rest (h1 ▸ hnames.1)
      cases v <;> simp [Ref.wellFormedMember, h1] at hhead
      rename_i s
      have hstep : Ref.storeMember (start, none) (k, Ref.JText.str s) =
          ({ start with Method := s }, none) := by
        simp [Ref.storeMember, h1]
      rw [hstep, ih _ hrest hnames.2]
      simp [Ref.fieldsOver, Ref.memberOf, h1, hnone, hm, hu]
    · by_cases h2 : Ref.foldName k = "params"
      · have hnone : Ref.memberOf "params" rest = none :=
          Ref.memberOf_none "params" rest (h2 ▸ hnames.1)
        cases v <;> simp [Ref.wellFormedMember, h2, hm.symm, hp] at hhead
        rename_i pm
        have herr := Ref.toInterfaceMembers_inRange pm start.Params none hhead
        have hstep : Ref.storeMember (start, none) (k, Ref.JText.obj pm) =
            ({ start with Params := (Ref.toInterfaceMembers pm start.Params none).1 },
              none) := by
          simp [Ref.storeMember, h2, hm.symm, herr]
        rw [hstep, ih _ hrest hnames.2]
        simp [Ref.fieldsOver, Ref.memberOf, h2, hnone, hm.symm, hp]
      · by_cases h3 : Ref.foldName k = "uid"
        · have hnone : Ref.memberOf "uid" rest = none :=
            Ref.memberOf_none "uid" rest (h3 ▸ hnames.1)
          cases v <;> simp [Ref.wellFormedMember, h3] at hhead
          rename_i s
          have hstep : Ref.storeMember (start, none) (k, Ref.JText.str s) =
              ({ start with Uid := s }, none) := by
            simp [Ref.storeMember, h3, hu.symm, hp.symm]
          rw [hstep, ih _ hrest hnames.2]
          simp [Ref.fieldsOver, Ref.memberOf, h3, hnone, hu.symm, hp.symm]
        · have hstep : Ref.storeMember (start, none) (k, v) = (start, none) := by
            simp [Ref.storeMember, h1, h2, h3]
          rw [hstep, ih _ hrest hnames.2]
          simp [Ref.fieldsOver, Ref.memberOf, h1, h2, h3]

/-- The reference decoder stores a well-formed command object as the command
it spells out, with no error. -/
theorem Ref.storeCommand_wellFormed (v : Ref.JText)
    (hwf : Ref.wellFormedCommand v = true) :
    Ref.storeCommand Ref.zeroCommand none v = (Ref.commandOf v, none) := by
  cases v <;> simp [Ref.wellFormedCommand] at hwf
  rename_i members
  simp only [Ref.storeCommand, Ref.commandOf]
  exact Ref.foldl_storeMember members Ref.zeroCommand (by simpa using hwf.1) hwf.2

/-- The reference decoder stores an array of well-formed command objects as
the commands they spell out, in order, with no error. -/
theorem Ref.storeCommands_wellFormed (elems : List Ref.JText)
    (hwf : ∀ v ∈ elems, Ref.wellFormedCommand v = true) :
    Ref.storeCommands elems = (elems.map Ref.commandOf, none) := by
  have general : ∀ (todo : List Ref.JText) (done : List clientCommand),
      (∀ v ∈ todo, Ref.wellFormedCommand v = true) →
      todo.foldl
        (fun st v => (st.1 ++ [(Ref.storeCommand Ref.zeroCommand st.2 v).1],
          (Ref.storeCommand Ref.zeroCommand st.2 v).2)) (done, none) =
        (done ++ todo.map Ref.commandOf, none) := by
    intro todo
    induction todo with
    | nil => intro done _; simp
    | cons v rest ih =>
      intro done hk
      simp only [List.foldl_cons]
      rw [Ref.storeCommand_wellFormed v (hk v (by simp))]
      simp only []
      rw [ih (done ++ [Ref.commandOf v]) (fun x hx => hk x (by simp [hx]))]
      simp
  simpa [Ref.storeCommands] using general elems [] hwf

/-! ## Properties that rest on the decoder -/

/-- C12, as stated, fails: the raw message `1e999` is valid JSON whose top-level
value is a number, neither an object nor an array; the number is outside the
range of `float64`, the decoder reports it, and `handleMessage` returns that
error of the decoder, not `ErrInvalidClientMessage`. -/
theorem handleMessage_number_out_of_range :
    Ref.parse "1e999" = Except.ok (Ref.JText.num "1e999") ∧
      (handleMessage Ref.env Ref.fresh "1e999").err =
        some (GoError.json (JsonError.unmarshalTypeError
          "cannot unmarshal number into Go value of type float64")) ∧
      (handleMessage Ref.env Ref.fresh "1e999").err ≠
        some GoError.ErrInvalidClientMessage := by
  refine ⟨by rfl, by decide, by decide⟩

/-- C12, amended: for a message that the decoder accepts and whose top-level
JSON value `f` is neither an object nor an array (the bare JSON string "hello"
for one), `handleMessage` returns `ErrInvalidClientMessage`; for a message
that the decoder rejects with the error `e`, it returns that error. In both
cases it performs no transport `Send` and dispatches no command: it performs
no event at all and leaves the session as it was. With the reference decoder:
a message whose text is one JSON value that is neither an array nor an object
gets `ErrInvalidClientMessage` when it is a string, a boolean, null or a
number within the range of `float64`, and the error of the decoder when it is
a number out of that range. -/
theorem handleMessage_other_shape :
    (∀ (env : Env) (c : client) (msg : String) (f : JVal),
      env.unmarshalAny msg = (f, none) → f.isObject = false → f.isArray = false →
      (handleMessage env c msg).err = some GoError.ErrInvalidClientMessage ∧
        sends (handleMessage env c msg).events = [] ∧
        (handleMessage env c msg).events = [] ∧
        (handleMessage env c msg).c = c) ∧
    (∀ (env : Env) (c : client) (msg : String) (f : JVal) (e : JsonError),
      env.unmarshalAny msg = (f, some e) →
      (handleMessage env c msg).err = some (GoError.json e) ∧
        sends (handleMessage env c msg).events = [] ∧
        (handleMessage env c msg).events = [] ∧
        (handleMessage env c msg).c = c) ∧
    (∀ (c : client) (msg : String) (v : Ref.JText),
      Ref.parse msg = Except.ok v → v.isScalar = true →
      (Ref.numbersInRange v = true →
        (handleMessage Ref.env c msg).err = some GoError.ErrInvalidClientMessage ∧
          (handleMessage Ref.env c msg).events = []) ∧
      (Ref.numbersInRange v = false →
        (handleMessage Ref.env c msg).err =
            some (GoError.json (JsonError.unmarshalTypeError
              "cannot unmarshal number into Go value of type float64")) ∧
          (handleMessage Ref.env c msg).events = [])) := by
  have accepted : ∀ (env : Env) (c : client) (msg : String) (f : JVal),
      env.unmarshalAny msg = (f, none) → f.isObject = false → f.isArray = false →
      (handleMessage env c msg).err = some GoError.ErrInvalidClientMessage ∧
        sends (handleMessage env c msg).events = [] ∧
        (handleMessage env c msg).events = [] ∧
        (handleMessage env c msg).c = c := by
    intro env c msg f hparse hobj harr
    have htype : getMessageType env msg = ("", some GoError.ErrInvalidClientMessage) := by
      cases f <;> simp_all [getMessageType, JVal.isObject, JVal.isArray]
    simp [handleMessage, htype, sends]
  have rejected : ∀ (env : Env) (c : client) (msg : String) (f : JVal) (e : JsonError),
      env.unmarshalAny msg = (f, some e) →
      (handleMessage env c msg).err = some (GoError.json e) ∧
        sends (handleMessage env c msg).events = [] ∧
        (handleMessage env c msg).events = [] ∧
        (handleMessage env c msg).c = c := by
    intro env c msg f e hparse
    have htype : getMessageType env msg = ("", some (GoError.json e)) := by
      simp [getMessageType, hparse]
    simp [handleMessage, htype, sends]
  refine ⟨accepted, rejected, ?_⟩
  intro c msg v hparse hscalar
  constructor
  · intro hrange
    have hany : Ref.env.unmarshalAny msg = ((Ref.toInterface v none).1, none) := by
      have h2 := Ref.toInterface_inRange v none hrange
      simp only [Ref.env, Ref.unmarshalAny, hparse]
      exact Prod.ext rfl h2
    have hshape : (Ref.toInterface v none).1.isObject = false ∧
        (Ref.toInterface v none).1.isArray = false := by
      cases v with
      | null => exact ⟨rfl, rfl⟩
      | bool b => exact ⟨rfl, rfl⟩
      | num literal =>
        cases hf : Ref.parseFloat literal <;>
          simp [Ref.toInterface, hf, JVal.isObject, JVal.isArray]
      | str s => exact ⟨rfl, rfl⟩
      | arr elems => simp [Ref.JText.isScalar] at hscalar
      | obj members => simp [Ref.JText.isScalar] at hscalar
    have h := accepted Ref.env c msg _ hany hshape.1 hshape.2
    exact ⟨h.1, h.2.2.1⟩
  · intro hrange
    have hany : Ref.env.unmarshalAny msg =
        (JVal.null, some (JsonError.unmarshalTypeError
          "cannot unmarshal number into Go value of type float64")) := by
      simp only [Ref.env, Ref.unmarshalAny, hparse]
      cases v with
      | null => simp [Ref.numbersInRange] at hrange
      | bool b => simp [Ref.numbersInRange] at hrange
      | num literal =>
        simp only [Ref.numbersInRange] at hrange
        cases hf : Ref.parseFloat literal with
        | none => simp [Ref.toInterface, hf, Ref.saveError]
        | some f => simp [hf] at hrange
      | str s => simp [Ref.numbersInRange] at hrange
      | arr elems => simp [Ref.JText.isScalar] at hscalar
      | obj members => simp [Ref.JText.isScalar] at hscalar
    have h := rejected Ref.env c msg _ _ hany
    exact ⟨h.1, h.2.2.1⟩

/-- Witness of the amended C12: the bare JSON string "hello", accepted, and the
number `1e999`, rejected by the decoder, on the fresh session; and the number
`12` through the reference decoder. -/
theorem handleMessage_other_shape_witness :
    ((handleMessage Ref.env Ref.fresh "\"hello\"").err =
        some GoError.ErrInvalidClientMessage ∧
      sends (handleMessage Ref.env Ref.fresh "\"hello\"").events = [] ∧
      (handleMessage Ref.env Ref.fresh "\"hello\"").events = [] ∧
      (handleMessage Ref.env Ref.fresh "\"hello\"").c = Ref.fresh) ∧
    ((handleMessage Ref.env Ref.fresh "1e999").err =
        some (GoError.json (JsonError.unmarshalTypeError
          "cannot unmarshal number into Go value of type float64")) ∧
      sends (handleMessage Ref.env Ref.fresh "1e999").events = [] ∧
      (handleMessage Ref.env Ref.fresh "1e999").events = [] ∧
      (handleMessage Ref.env Ref.fresh "1e999").c = Ref.fresh) ∧
    ((handleMessage Ref.env Ref.fresh "12").err = some GoError.ErrInvalidClientMessage ∧
      (handleMessage Ref.env Ref.fresh "12").events = []) ∧
    ((handleMessage Ref.env Ref.fresh "-1e400").err =
        some (GoError.json (JsonError.unmarshalTypeError
          "cannot unmarshal number into Go value of type float64")) ∧
      (handleMessage Ref.env Ref.fresh "-1e400").events = []) :=
  ⟨handleMessage_other_shape.1 Ref.env Ref.fresh "\"hello\"" (JVal.str "hello")
      (by rfl) (by rfl) (by rfl),
    handleMessage_other_shape.2.1 Ref.env Ref.fresh "1e999" JVal.null
      (JsonError.unmarshalTypeError "cannot unmarshal number into Go value of type float64")
      (by rfl),
    (handleMessage_other_shape.2.2 Ref.fresh "12" (Ref.JText.num "12")
      (by rfl) (by rfl)).1 (by decide),
    (handleMessage_other_shape.2.2 Ref.fresh "-1e400" (Ref.JText.num "-1e400")
      (by rfl) (by rfl)).2 (by decide)⟩

/-- C11, as stated, fails: the message
`[{"method":"a","params":{"x":1e999},"uid":"1"}]` is a JSON array of one
command object (a string method, an object params, a string uid), and
`getCommandsFromClientMessage` returns no command and the error of the
decoder, because the number in params is outside the range of `float64`. And
the single object `{"method":"a","params":{"n":9007199254740993},"uid":"1"}`
gives a command whose params hold for `n` the `float64` nearest to it,
`2 ^ 53 = 9007199254740992`, not the value of the message. -/
theorem getCommands_number_not_preserved :
    Ref.parse "[\x7b\"method\":\"a\",\"params\":\x7b\"x\":1e999\x7d,\"uid\":\"1\"\x7d]" =
        Except.ok (Ref.JText.arr [Ref.JText.obj
          [("method", Ref.JText.str "a"),
            ("params", Ref.JText.obj [("x", Ref.JText.num "1e999")]),
            ("uid", Ref.JText.str "1")]]) ∧
      getCommandsFromClientMessage Ref.env
          "[\x7b\"method\":\"a\",\"params\":\x7b\"x\":1e999\x7d,\"uid\":\"1\"\x7d]" "array" =
        ([], some (GoError.json (JsonError.unmarshalTypeError
          "cannot unmarshal number into Go value of type float64"))) ∧
      getCommandsFromClientMessage Ref.env
          "\x7b\"method\":\"a\",\"params\":\x7b\"n\":9007199254740993\x7d,\"uid\":\"1\"\x7d"
          "map" =
        ([⟨"a", [("n", JVal.num ⟨false, 1, 53⟩)], "1"⟩], none) ∧
      (1 : Nat) * 2 ^ 53 ≠ 9007199254740993 := by
  refine ⟨by rfl, by rfl, by rfl, by decide⟩

/-- C11, amended: `getCommandsFromClientMessage` returns what the decoder has
decoded, unchanged and in order: with type "array" the decoded list, with type
"map" the one decoded command. With the reference decoder, for every message
that is a JSON array of N well-formed command objects (members with distinct
names, "method" and "uid" strings, "params" an object whose numbers are all
within the range of `float64`; the members in any order, a field possibly
absent), it returns exactly N commands and no error, the i-th command having
the method and uid of the i-th element and its params as they are stored in a
`map[string]interface{}` (each number as the nearest `float64`); and for a
message that is one such object, with type "map", exactly that one command. -/
theorem getCommands_well_formed :
    (∀ (env : Env) (msg : String) (decoded : List clientCommand),
      env.unmarshalCommands msg = (decoded, none) →
      getCommandsFromClientMessage env msg "array" = (decoded, none)) ∧
    (∀ (env : Env) (msg : String) (command : clientCommand),
      env.unmarshalCommand msg = (command, none) →
      getCommandsFromClientMessage env msg "map" = ([command], none)) ∧
    (∀ (msg : String) (elems : List Ref.JText),
      Ref.parse msg = Except.ok (Ref.JText.arr elems) →
      (∀ v ∈ elems, Ref.wellFormedCommand v = true) →
      getCommandsFromClientMessage Ref.env msg "array" =
          (elems.map Ref.commandOf, none) ∧
        (getCommandsFromClientMessage Ref.env msg "array").1.length = elems.length) ∧
    (∀ (msg : String) (v : Ref.JText),
      Ref.parse msg = Except.ok v → Ref.wellFormedCommand v = true →
      getCommandsFromClientMessage Ref.env msg "map" = ([Ref.commandOf v], none)) := by
  refine ⟨?_, ?_, ?_, ?_⟩
  · intro env msg decoded hdecode
    simp [getCommandsFromClientMessage, hdecode]
  · intro env msg command hdecode
    simp [getCommandsFromClientMessage, hdecode]
  · intro msg elems hparse hwf
    have hdecode : Ref.env.unmarshalCommands msg = (elems.map Ref.commandOf, none) := by
      simp only [Ref.env, Ref.unmarshalCommands, hparse]
      exact Ref.storeCommands_wellFormed elems hwf
    simp [getCommandsFromClientMessage, hdecode]
  · intro msg v hparse hwf
    have hdecode : Ref.env.unmarshalCommand msg = (Ref.commandOf v, none) := by
      simp only [Ref.env, Ref.unmarshalCommand, hparse]
      exact Ref.storeCommand_wellFormed v hwf
    simp [getCommandsFromClientMessage, hdecode]

/-- Witness of the amended C11: the batch of the spec (no params), through the
first two parts; then a batch of two command objects whose members come in
another order, with another letter case, with a number in params and with a
member that is no field; and a single command object. -/
theorem getCommands_well_formed_witness :
    getCommandsFromClientMessage Ref.env
        "[\x7b\"method\":\"subscribe\",\"uid\":\"a\"\x7d,\x7b\"method\":\"publish\",\"uid\":\"b\"\x7d]"
        "array" =
      ([⟨"subscribe", [], "a"⟩, ⟨"publish", [], "b"⟩], none) ∧
    getCommandsFromClientMessage Ref.env
        "\x7b\"uid\":\"7\",\"method\":\"publish\"\x7d" "map" =
      ([⟨"publish", [], "7"⟩], none) ∧
    (getCommandsFromClientMessage Ref.env
        "[\x7b\"uid\":\"7\",\"params\":\x7b\"n\":0.5\x7d,\"method\":\"publish\"\x7d, \x7b\"Method\":\"subscribe\",\"extra\":1e999\x7d]"
        "array" =
      ([⟨"publish", [("n", JVal.num ⟨false, 1, -1⟩)], "7"⟩, ⟨"subscribe", [], ""⟩], none) ∧
      (getCommandsFromClientMessage Ref.env
        "[\x7b\"uid\":\"7\",\"params\":\x7b\"n\":0.5\x7d,\"method\":\"publish\"\x7d, \x7b\"Method\":\"subscribe\",\"extra\":1e999\x7d]"
        "array").1.length = 2) ∧
    getCommandsFromClientMessage Ref.env
        "\x7b\"method\":\"connect\",\"params\":\x7b\x7d,\"uid\":\"1\"\x7d" "map" =
      ([⟨"connect", [], "1"⟩], none) :=
  ⟨getCommands_well_formed.1 Ref.env
      "[\x7b\"method\":\"subscribe\",\"uid\":\"a\"\x7d,\x7b\"method\":\"publish\",\"uid\":\"b\"\x7d]"
      [⟨"subscribe", [], "a"⟩, ⟨"publish", [], "b"⟩] (by rfl),
    getCommands_well_formed.2.1 Ref.env "\x7b\"uid\":\"7\",\"method\":\"publish\"\x7d"
      ⟨"publish", [], "7"⟩ (by rfl),
    getCommands_well_formed.2.2.1
      "[\x7b\"uid\":\"7\",\"params\":\x7b\"n\":0.5\x7d,\"method\":\"publish\"\x7d, \x7b\"Method\":\"subscribe\",\"extra\":1e999\x7d]"
      [Ref.JText.obj [("uid", Ref.JText.str "7"),
          ("params", Ref.JText.obj [("n", Ref.JText.num "0.5")]),
          ("method", Ref.JText.str "publish")],
        Ref.JText.obj [("Method", Ref.JText.str "subscribe"),
          ("extra", Ref.JText.num "1e999")]]
      (by rfl) (by decide),
    getCommands_well_formed.2.2.2
      "\x7b\"method\":\"connect\",\"params\":\x7b\x7d,\"uid\":\"1\"\x7d"
      (Ref.JText.obj [("method", Ref.JText.str "connect"), ("params", Ref.JText.obj []),
        ("uid", Ref.JText.str "1")])
      (by rfl) (by decide)⟩

/-! ## Properties of the session's lock -/

/-- The result of `handleCommandTraced` is that of `handleCommand`. -/
theorem handleCommandTraced_result (c : client) (command : clientCommand) :
    (handleCommandTraced c command).1 = handleCommand c command := by
  by_cases h1 : command.Method = "connect"
  · simp [handleCommandTraced, handleCommand, h1, handleConnect]
  · cases hauth : c.isAuthenticated
    · simp [handleCommandTraced, handleCommand, h1, hauth]
    · by_cases h2 : command.Method = "subscribe"
      · simp [handleCommandTraced, handleCommand, h1, h2, hauth, handleSubscribe]
      · by_cases h3 : command.Method = "publish"
        · simp [handleCommandTraced, handleCommand, h1, h2, h3, hauth, handlePublish]
        · simp [handleCommandTraced, handleCommand, h1, h2, h3, hauth]

/-- The accesses of `handleCommandTraced`: the read of the gate, when the
method is not "connect". -/
theorem handleCommandTraced_accesses (c : client) (command : clientCommand) :
    (handleCommandTraced c command).2 =
      if command.Method ≠ "connect" then [Access.readIsAuthenticated c.mutexLocked]
      else [] := by
  by_cases h1 : command.Method = "connect"
  · simp [handleCommandTraced, h1, handleConnect]
  · cases hauth : c.isAuthenticated
    · simp [handleCommandTraced, h1, hauth]
    · by_cases h2 : command.Method = "subscribe"
      · simp [handleCommandTraced, h1, h2, hauth, handleSubscribe]
      · by_cases h3 : command.Method = "publish"
        · simp [handleCommandTraced, h1, h2, h3, hauth, handlePublish]
        · simp [handleCommandTraced, h1, h2, h3, hauth]

/-- The result of `handleCommandsLoopTraced` is that of `handleCommandsLoop`. -/
theorem handleCommandsLoopTraced_result (c : client) (mr : List response)
    (commands : List clientCommand) :
    (handleCommandsLoopTraced c mr commands).1 = handleCommandsLoop c mr commands := by
  induction commands generalizing c mr with
  | nil => rfl
  | cons command rest ih =>
    cases herr : (handleCommand c command).err with
    | some err =>
      rw [handleCommandsLoop_cons_err c mr command rest err herr]
      simp [handleCommandsLoopTraced, handleCommandTraced_result, herr]
    | none =>
      rw [handleCommandsLoop_cons_ok c mr command rest herr]
      simp [handleCommandsLoopTraced, handleCommandTraced_result, herr, ih]

/-- The result of `handleCommandsTraced` is that of `handleCommands`. -/
theorem handleCommandsTraced_result (env : Env) (c : client)
    (commands : List clientCommand) :
    (handleCommandsTraced env c commands).1 = handleCommands env c commands := by
  have hloop := handleCommandsLoopTraced_result c [] commands
  unfold handleCommandsTraced handleCommands
  rcases htr : handleCommandsLoopTraced c [] commands with ⟨⟨c1, events, mr, err⟩, accesses⟩
  rw [htr] at hloop
  simp only [] at hloop
  rw [← hloop]
  cases err with
  | some e => rfl
  | none =>
    rcases hj : env.toJson mr with ⟨text, jerr⟩
    cases jerr <;> simp [hj]

/-- The loop meets the mutex in the state it had on entry, and performs no
`Send`. -/
theorem handleCommandsLoopTraced_accesses (c : client) (mr : List response)
    (commands : List clientCommand) :
    ∀ a ∈ (handleCommandsLoopTraced c mr commands).2,
      a.locked = c.mutexLocked ∧ a.isSend = false := by
  induction commands generalizing c mr with
  | nil => intro a ha; cases ha
  | cons command rest ih =>
    have hhead : ∀ a ∈ (handleCommandTraced c command).2,
        a.locked = c.mutexLocked ∧ a.isSend = false := by
      intro a ha
      rw [handleCommandTraced_accesses] at ha
      split at ha
      · simp only [List.mem_singleton] at ha
        rw [ha]; exact ⟨rfl, rfl⟩
      · cases ha
    intro a ha
    cases herr : (handleCommand c command).err with
    | some err =>
      simp only [handleCommandsLoopTraced, handleCommandTraced_result, herr] at ha
      exact hhead a ha
    | none =>
      simp only [handleCommandsLoopTraced, handleCommandTraced_result, herr,
        List.mem_append] at ha
      rcases ha with h | h
      · exact hhead a h
      · have := ih (handleCommand c command).c (mr ++ [(handleCommand c command).resp]) a h
        rw [handleCommand_client] at this
        exact this

/-- The accesses of `handleCommandsTraced` are those of the loop, followed by
the read of `session` and the `Send` exactly when `handleCommands` sends. -/
theorem handleCommandsTraced_accesses (env : Env) (c : client)
    (commands : List clientCommand) :
    (handleCommandsTraced env c commands).2 =
      (handleCommandsLoopTraced c [] commands).2 ++
        (sends (handleCommands env c commands).events).flatMap
          (fun _ => [Access.readSession c.mutexLocked, Access.send c.mutexLocked]) := by
  have hloop := handleCommandsLoopTraced_result c [] commands
  have hc := handleCommandsLoop_client c [] commands
  have hs := handleCommandsLoop_sends c [] commands
  unfold handleCommandsTraced handleCommands
  rcases htr : handleCommandsLoopTraced c [] commands with ⟨⟨c1, events, mr, err⟩, accesses⟩
  rw [htr] at hloop
  simp only [] at hloop
  rw [← hloop] at hc hs ⊢
  simp only [] at hc hs
  subst hc
  cases err with
  | some e => simp [hs]
  | none =>
    rcases hj : env.toJson mr with ⟨text, jerr⟩
    cases jerr <;> simp [hj, hs, sends_append, sends]

/-- C15, as stated, fails: on the session that `newClient` builds, the read of
`project` in `getProject`, the read of `user` in `getUser` and the read of
`isAuthenticated` in `handleCommand` (for a "subscribe" command) happen with
the lock not held. On an authenticated session a "subscribe" command is
answered by a `Send`: the accesses are the read of `isAuthenticated`, the read
of `session` and the `Send`, all in the state of the mutex on entry; so the
read happens without the lock when the lock is free on entry, and the `Send`
happens under the lock when the caller holds it on entry. -/
theorem lock_rule_broken :
    lockDiscipline (getProjectTraced Ref.fresh).2 = false ∧
      lockDiscipline (getUserTraced Ref.fresh).2 = false ∧
      lockDiscipline (handleCommandsTraced Ref.env Ref.fresh [⟨"subscribe", [], "a"⟩]).2 =
        false ∧
      (handleCommandsTraced Ref.env { Ref.fresh with isAuthenticated := true }
          [⟨"subscribe", [], "a"⟩]).2 =
        [Access.readIsAuthenticated false, Access.readSession false, Access.send false] ∧
      lockDiscipline (handleCommandsTraced Ref.env
        { Ref.fresh with isAuthenticated := true } [⟨"subscribe", [], "a"⟩]).2 = false ∧
      (handleCommandsTraced Ref.env
          { Ref.fresh with isAuthenticated := true, mutexLocked := true }
          [⟨"subscribe", [], "a"⟩]).2 =
        [Access.readIsAuthenticated true, Access.readSession true, Access.send true] ∧
      lockDiscipline (handleCommandsTraced Ref.env
        { Ref.fresh with isAuthenticated := true, mutexLocked := true }
        [⟨"subscribe", [], "a"⟩]).2 = false := by
  decide

/-- C15, amended: no function of `client.go` takes or releases the lock of the
session. The traced functions return what `getProject`, `getUser` and
`handleCommands` return; every read of session state after construction
(`isAuthenticated` in `handleCommand`, `project` and `user` in `getProject` and
`getUser`, `session` in `handleCommands`) and the transport `Send` happen with
the mutex in the state it had when the function was entered; a `Send` is among
the accesses exactly when `handleCommands` sends; `handleCommands` leaves the
mutex in the state it found; and a session built by `newClient` has it
unlocked. So on a session whose lock is not held when the function is entered,
the lock is not held during the transport `Send`, and it is not held during
the reads either. -/
theorem accesses_keep_lock_state (env : Env) (c : client) (commands : List clientCommand) :
    ((handleCommandsTraced env c commands).1 = handleCommands env c commands ∧
        (getProjectTraced c).1 = getProject c ∧ (getUserTraced c).1 = getUser c) ∧
      (∀ a ∈ (handleCommandsTraced env c commands).2 ++ (getProjectTraced c).2 ++
          (getUserTraced c).2, a.locked = c.mutexLocked) ∧
      ((handleCommandsTraced env c commands).2.filter Access.isSend).length =
        (sends (handleCommands env c commands).events).length ∧
      (handleCommands env c commands).c.mutexLocked = c.mutexLocked ∧
      (∀ (session : Session) (closeChannel : Nat) (built : client),
        newClient env session closeChannel = (some built, none) →
        built.mutexLocked = false) ∧
      (c.mutexLocked = false →
        ∀ a ∈ (handleCommandsTraced env c commands).2 ++ (getProjectTraced c).2 ++
          (getUserTraced c).2, a.locked = false) := by
  have hall : ∀ a ∈ (handleCommandsTraced env c commands).2 ++ (getProjectTraced c).2 ++
      (getUserTraced c).2, a.locked = c.mutexLocked := by
    intro a ha
    simp only [List.mem_append] at ha
    rcases ha with (hcmds | hproj) | huser
    · rw [handleCommandsTraced_accesses, List.mem_append] at hcmds
      rcases hcmds with hloop | hsend
      · exact (handleCommandsLoopTraced_accesses c [] commands a hloop).1
      · simp only [List.mem_flatMap, List.mem_cons, List.mem_singleton] at hsend
        rcases hsend with ⟨_, _, h | h | h⟩
        · rw [h]; rfl
        · rw [h]; rfl
        · cases h
    · simp only [getProjectTraced, List.mem_singleton] at hproj
      rw [hproj]; rfl
    · simp only [getUserTraced, List.mem_singleton] at huser
      rw [huser]; rfl
  have hcount : ((handleCommandsTraced env c commands).2.filter Access.isSend).length =
      (sends (handleCommands env c commands).events).length := by
    rw [handleCommandsTraced_accesses, List.filter_append]
    have hnone : (handleCommandsLoopTraced c [] commands).2.filter Access.isSend = [] := by
      rw [List.filter_eq_nil_iff]
      intro a ha
      simp [(handleCommandsLoopTraced_accesses c [] commands a ha).2]
    rw [hnone, List.nil_append]
    induction sends (handleCommands env c commands).events with
    | nil => rfl
    | cons t rest ih =>
      simp only [List.flatMap_cons, List.filter_append, List.length_append, List.length_cons,
        ih]
      simp [List.filter, Access.isSend]
      omega
  refine ⟨⟨handleCommandsTraced_result env c commands, rfl, rfl⟩, hall, hcount, ?_, ?_, ?_⟩
  · rw [handleCommands_client]
  · intro session closeChannel built hbuilt
    unfold newClient at hbuilt
    cases hgen : env.newV4 with
    | error e => rw [hgen] at hbuilt; simp at hbuilt
    | ok uid =>
      rw [hgen] at hbuilt
      simp only [Prod.mk.injEq, Option.some.injEq, and_true] at hbuilt
      rw [← hbuilt]
  · intro hunlocked a ha
    rw [hall a ha, hunlocked]

/-- Witness of the amended C15: the session built by `newClient` in the
reference environment (`Ref.fresh`) has its lock free; and on that session,
once authenticated, a "subscribe" command is answered by one `Send`, and its
read of `isAuthenticated`, its read of `session` and its `Send`, with the
reads of `getProject` and `getUser`, all happen with the lock not held. -/
theorem accesses_keep_lock_state_witness :
    Ref.fresh.mutexLocked = false ∧
      ((handleCommandsTraced Ref.env { Ref.fresh with isAuthenticated := true }
          [⟨"subscribe", [], "a"⟩]).2.filter Access.isSend).length = 1 ∧
      ∀ a ∈ [Access.readIsAuthenticated false, Access.readSession false,
          Access.send false, Access.readProject false, Access.readUser false],
        a.locked = false :=
  ⟨(accesses_keep_lock_state Ref.env Ref.fresh [⟨"subscribe", [], "a"⟩]).2.2.2.2.1
      Ref.session 0 Ref.fresh (by rfl),
    (accesses_keep_lock_state Ref.env { Ref.fresh with isAuthenticated := true }
      [⟨"subscribe", [], "a"⟩]).2.2.1,
    (accesses_keep_lock_state Ref.env { Ref.fresh with isAuthenticated := true }
      [⟨"subscribe", [], "a"⟩]).2.2.2.2.2 (by decide)⟩

end Centrifugo
